import Mathlib

/-! CarRentals dashboard: the state and derivation engine of `frontend/src/App.jsx`.

A shallow embedding of the client in `src/CarRentals/frontend/src/App.jsx`.

* React state (`useState`) is the record `State`; every handler is a function on it.
* A handler that can throw returns a `Run`: the message of the `Error` it threw (if any)
  together with the state it left behind.
* JavaScript numbers are the rationals they denote (`ℚ`), instants are integer milliseconds
  (`ℤ`). A product, sum or quotient of prices is an IEEE double again: its value is the
  host's `roundNumber` of the exact result. A comparator only uses the sign of a
  difference, which rounding keeps. `NaN` and the infinities are outside the model.
* What the browser provides (`toLowerCase`, `trim`, `new Date(..)`, `JSON.parse`,
  `localeCompare`, number formatting) is a field of `Host`; theorems hold for every host.
* `Array.prototype.sort` is a stable sort (ECMAScript 2019); it is embedded as the stable
  insertion sort `arraySort`. For a consistent comparator every stable sort returns the
  same list.
-/

namespace CarRentals

/-! ## Values exchanged with the gateway -/

/-- A value produced by `JSON.parse`. -/
inductive Json where
  | null : Json
  | bool (b : Bool) : Json
  | num (n : ℚ) : Json
  | str (s : String) : Json
  | arr (items : List Json) : Json
  /-- An object, as the list of its own properties (each key once). -/
  | obj (fields : List (String × Json)) : Json

/-- The record shape of a car of the fleet (`GET /api/cars`). `id` is the identifier in the
string form `String(item.id)` under which the client compares and searches it. -/
structure Car where
  id : String
  make : String
  model : String
  pricePerDay : ℚ
  available : Bool
  deriving DecidableEq

/-- What the JavaScript host provides to the program. -/
structure Host where
  /-- `String.prototype.toLowerCase` -/
  toLowerCase : String → String
  /-- `String.prototype.trim` -/
  trim : String → String
  /-- `String(n)` for a number `n` -/
  numberToString : ℚ → String
  /-- `Number(s)` for a string `s`; `none` when the result is `NaN` or infinite -/
  toNumber : String → Option ℚ
  /-- The IEEE 754 double nearest to a real number (ties to the even mantissa): the value
  of `a * b`, `a + b` or `a / b` is `roundNumber` of the exact product, sum or quotient -/
  roundNumber : ℚ → ℚ
  /-- `a.localeCompare(b)` -/
  localeCompare : String → String → ℤ
  /-- `new Date(s).getTime()`; `none` when the time value is `NaN` -/
  parseDate : String → Option ℤ
  /-- `new Date(t).toISOString()` -/
  toISOString : ℤ → String
  /-- `JSON.parse(s)`; `none` when it throws -/
  jsonParse : String → Option Json
  /-- `String(v)` for a parsed value `v` that is not a string -/
  jsonToString : Json → String
  /-- The car record read off one element of the array answered by `GET /api/cars` -/
  carOfJson : Json → Car
  /-- `API_BASE_URL` -/
  apiBaseUrl : String

/-! ## Helpers of the language -/

/-- `s.includes(q)`: `q` occurs in `s` as a contiguous substring. -/
def includes (s q : String) : Bool :=
  decide (q.data <:+: s.data)

/-- Insertion step of the stable sort: `a` (which preceded every element of the list in the
input) goes in front of the first `b` with `cmp a b ≤ 0`. -/
def insertSorted {α : Type} (cmp : α → α → ℚ) (a : α) : List α → List α
  | [] => [a]
  | b :: l => if cmp a b ≤ 0 then a :: b :: l else b :: insertSorted cmp a l

/-- `Array.prototype.sort(cmp)`: stable sort by a comparator. -/
def arraySort {α : Type} (cmp : α → α → ℚ) : List α → List α
  | [] => []
  | a :: l => insertSorted cmp a (arraySort cmp l)

/-- `normalize` (App.jsx:103) on a string. -/
def normalize (H : Host) (value : String) : String :=
  H.trim (H.toLowerCase value)

/-! ## Derivation engine: cars -/

/-- The comparator of the fallback (`recommended`) sort mode (App.jsx:290-295). -/
def recommendedCompare (a b : Car) : ℚ :=
  if a.available ≠ b.available then
    (if a.available then -1 else 1)
  else a.pricePerDay - b.pricePerDay

/-- `filteredCars` (App.jsx:270-299). -/
def filteredCars (H : Host) (cars : List Car) (queryCars sortBy : String) : List Car :=
  let query := normalize H queryCars
  let filtered := cars.filter fun item =>
    if query = "" then true
    else
      includes (normalize H item.id) query ||
      includes (normalize H item.make) query ||
      includes (normalize H item.model) query ||
      includes (normalize H (H.numberToString item.pricePerDay)) query
  if sortBy = "price-asc" then
    arraySort (fun a b => a.pricePerDay - b.pricePerDay) filtered
  else if sortBy = "price-desc" then
    arraySort (fun a b => b.pricePerDay - a.pricePerDay) filtered
  else if sortBy = "make-asc" then
    arraySort (fun a b =>
      ((H.localeCompare (a.make ++ " " ++ a.model) (b.make ++ " " ++ b.model) : ℤ) : ℚ)) filtered
  else
    arraySort recommendedCompare filtered

/-! ## Values of the language -/

/-- Truthiness of a value; `none` is `undefined`. -/
def truthy : Option Json → Bool
  | none => false
  | some Json.null => false
  | some (Json.bool b) => b
  | some (Json.num n) => decide (n ≠ 0)
  | some (Json.str s) => decide (s ≠ "")
  | some (Json.arr _) => true
  | some (Json.obj _) => true

/-- The operator `a || b`. -/
def jsOr (a b : Option Json) : Option Json :=
  if truthy a then a else b

/-- Property access `v.key` on a parsed value: the field of an object, `undefined` on every
other value. (On `null` JavaScript throws instead; both places that read a field of a
possibly-`null` value treat the throw like `undefined`, see `request`, or test the value
first, see `handleAuthSubmit`.) -/
def Json.get : Json → String → Option Json
  | Json.obj fields, key => fields.lookup key
  | _, _ => none

/-- `String(v)`, as in a template literal or `new Error(v).message`. -/
def toStr (H : Host) : Option Json → String
  | some (Json.str s) => s
  | some v => H.jsonToString v
  | none => "undefined"

/-- `v === s` for a string literal `s`. -/
def strictEqStr : Option Json → String → Bool
  | some (Json.str t), s => t == s
  | _, _ => false

/-- `n.toString()` of a non-negative integer. -/
def natToString (n : ℕ) : String :=
  String.mk (Nat.toDigits 10 n)

/-- `s.slice(-k)`: the last `k` characters of `s` (all of `s` when it is shorter). -/
def sliceLast (k : ℕ) (s : String) : String :=
  String.mk (s.data.drop (s.data.length - k))

/-! ## Data model -/

/-- A booking of the local ledger. -/
structure Booking where
  id : String
  customerName : String
  carId : String
  carLabel : String
  startDate : String
  endDate : String
  days : ℤ
  totalPrice : ℚ
  status : String
  createdAt : String
  deriving DecidableEq

/-- The car composer form (`initialCar`). -/
structure CarForm where
  make : String
  model : String
  pricePerDay : String
  available : Bool
  deriving DecidableEq

/-- The booking composer form (`initialBooking`). -/
structure BookingForm where
  customerName : String
  carId : String
  startDate : String
  endDate : String
  deriving DecidableEq

/-- The authentication form (`initialAuthForm`). -/
structure AuthForm where
  name : String
  email : String
  password : String
  role : String
  deriving DecidableEq

/-- The status banner. -/
structure Status where
  tone : String
  text : String
  deriving DecidableEq

/-- An entry of the activity log; `atTime` is the field `at`. -/
structure ActivityEvent where
  id : String
  message : String
  atTime : String
  deriving DecidableEq

/-- The signed-in user, as copied field by field from the authentication payload. -/
structure SessionUser where
  userId : Option Json
  name : Option Json
  email : Option Json
  role : Option Json

/-- The three search boxes. -/
structure Queries where
  cars : String
  bookings : String
  insights : String
  deriving DecidableEq

/-- The React state of `App`. -/
structure State where
  cars : List Car
  bookings : List Booking
  carForm : CarForm
  bookingForm : BookingForm
  activeTab : String
  composerType : String
  queries : Queries
  sortBy : String
  viewMode : String
  loading : Bool
  submitting : Bool
  status : Status
  lastSync : String
  activity : List ActivityEvent
  selectedCarId : Option String
  rentalDays : ℕ
  sessionUser : Option SessionUser
  authMode : String
  authForm : AuthForm
  authLoading : Bool
  authError : String
  authMessage : String

def initialCar : CarForm :=
  { make := "", model := "", pricePerDay := "", available := true }

def initialBooking : BookingForm :=
  { customerName := "", carId := "", startDate := "", endDate := "" }

def initialAuthForm : AuthForm :=
  { name := "", email := "", password := "", role := "CUSTOMER" }

/-- The state `App` starts in (the initial values of its `useState` calls). -/
def initialState : State :=
  { cars := [], bookings := [], carForm := initialCar, bookingForm := initialBooking,
    activeTab := "cars", composerType := "car",
    queries := { cars := "", bookings := "", insights := "" },
    sortBy := "recommended", viewMode := "grid", loading := false, submitting := false,
    status := { tone := "neutral", text := "Connecting to rental operations..." },
    lastSync := "--:--", activity := [], selectedCarId := none, rentalDays := 3,
    sessionUser := none, authMode := "login", authForm := initialAuthForm,
    authLoading := false, authError := "", authMessage := "Sign in to continue." }

/-! ## Environment of a handler -/

/-- A call sent to the gateway with `fetch`. -/
structure Request where
  url : String
  method : String
  body : Option Json

/-- The answer of the gateway to one call: HTTP status and body text. -/
structure Response where
  status : ℕ
  body : String

/-- `response.ok`: the status is in the range 200-299. -/
def Response.ok (r : Response) : Bool :=
  decide (200 ≤ r.status ∧ r.status ≤ 299)

/-- What one call of `addActivity` reads from the environment: `Date.now()`,
`Math.random()` and the text of `timeStamp()`. -/
structure Tick where
  now : ℕ
  random : ℚ
  clock : String

/-- The outcome of running a handler: the message of the `Error` it threw (if it threw),
the calls it sent to the gateway, and the state it left. -/
structure Run where
  error : Option String
  sent : List Request
  state : State

def CARS_URL (H : Host) : String := H.apiBaseUrl ++ "/api/cars"

def CREATE_CAR_URL (H : Host) : String := CARS_URL H ++ "/path"

def LOGIN_URL (H : Host) : String := H.apiBaseUrl ++ "/api/auth/login"

def REGISTER_URL (H : Host) : String := H.apiBaseUrl ++ "/api/auth/register"

/-! ## Remote gateway -/

/-- `request` (App.jsx:45-101). `response = none` is a `fetch` that rejected. The result is
the parsed payload (`Json.null` for `null`) or the message of the thrown `Error`. -/
def request (H : Host) (url : String) (response : Option Response) : Except String Json :=
  match response with
  | none => Except.error ("Cannot reach backend API at " ++ H.apiBaseUrl ++ ".")
  | some response =>
    if !response.ok then
      let rawBody := response.body
      let message : Option Json :=
        if rawBody ≠ "" then
          match H.jsonParse rawBody with
          | some parsed =>
            jsOr (parsed.get "message") (jsOr (parsed.get "error")
              (jsOr (parsed.get "detail") (jsOr (parsed.get "title") (some (Json.str "")))))
          | none => some (Json.str "")
        else some (Json.str "")
      let message : Option Json :=
        if !truthy message then
          if response.status = 500 ∧ includes url "/api/" then
            some (Json.str "Backend API is unavailable. Start Spring Boot on port 8081.")
          else
            some (Json.str ("Request failed (" ++ natToString response.status ++ ")"))
        else message
      Except.error (toStr H message)
    else if response.status = 204 then Except.ok Json.null
    else
      let payload := response.body
      if payload = "" then Except.ok Json.null
      else
        match H.jsonParse payload with
        | some v => Except.ok v
        | none => Except.ok Json.null

/-- `fetchCars` (App.jsx:179-182). -/
def fetchCars (H : Host) (response : Option Response) : Except String (List Car) :=
  match request H (CARS_URL H) response with
  | Except.error m => Except.error m
  | Except.ok (Json.arr items) => Except.ok (items.map H.carOfJson)
  | Except.ok _ => Except.ok []

/-! ## Activity log -/

/-- `addActivity` (App.jsx:170-177). -/
def addActivity (H : Host) (tick : Tick) (message : String) (st : State) : State :=
  let event : ActivityEvent :=
    { id := natToString tick.now ++ "-" ++ H.numberToString tick.random,
      message := message,
      atTime := tick.clock }
  { st with activity := (event :: st.activity).take 12 }

/-! ## Session gate -/

/-- `isAdmin` (App.jsx:378): `sessionUser?.role === 'ADMIN'`. -/
def isAdmin (st : State) : Bool :=
  match st.sessionUser with
  | none => false
  | some user => strictEqStr user.role "ADMIN"

/-- The effect on `[composerType, isAdmin]` (App.jsx:388-392). -/
def composerModeEffect (st : State) : State :=
  if !isAdmin st && st.composerType == "car" then
    { st with composerType := "booking" }
  else st

/-! ## Synchronization controller -/

/-- Environment of one `syncAll`: the answer to `GET /api/cars`, the text of the
`timeStamp()` stored as last sync, and the readings of its `addActivity`. -/
structure SyncEnv where
  response : Option Response
  clock : String
  tick : Tick

/-- `syncAll` (App.jsx:184-206). It catches every failure, so it never throws. -/
def syncAll (H : Host) (reason : String) (env : SyncEnv) (st : State) : Run :=
  let st := { st with loading := true }
  let st := { st with status := { tone := "neutral", text := "Synchronizing fleet data..." } }
  let st :=
    match fetchCars H env.response with
    | Except.ok carData =>
      let st := { st with cars := carData }
      let st := { st with lastSync := env.clock }
      let st := { st with status := { tone := "success", text := "Fleet data is up to date." } }
      addActivity H env.tick (reason ++ " completed") st
    | Except.error message =>
      let st := { st with status :=
        { tone := "error",
          text := if message ≠ "" then message else "Unable to synchronize records." } }
      addActivity H env.tick "Data synchronization failed" st
  let st := { st with loading := false }
  { error := none,
    sent := [{ url := CARS_URL H, method := "GET", body := none }],
    state := st }

/-- Environment of one `createCar`: the answer to the `POST`, the readings of its
`addActivity`, and the environment of the refresh that follows. -/
structure CarEnv where
  response : Option Response
  tick : Tick
  sync : SyncEnv

/-- `createCar` (App.jsx:541-577). -/
def createCar (H : Host) (env : CarEnv) (st : State) : Run :=
  if !isAdmin st then
    { error := some "Only admin accounts can add cars.", sent := [], state := st }
  else
    let make := H.trim st.carForm.make
    let model := H.trim st.carForm.model
    let price := H.toNumber st.carForm.pricePerDay
    if make = "" ∨ model = "" then
      { error := some "Make and model are required.", sent := [], state := st }
    else
      match price with
      | none =>
        { error := some "Price per day must be a positive number.", sent := [], state := st }
      | some price =>
        if price ≤ 0 then
          { error := some "Price per day must be a positive number.", sent := [], state := st }
        else
          let post : Request :=
            { url := CREATE_CAR_URL H, method := "POST",
              body := some (Json.obj [("make", Json.str make), ("model", Json.str model),
                ("pricePerDay", Json.num price), ("available", Json.bool st.carForm.available)]) }
          match request H (CREATE_CAR_URL H) env.response with
          | Except.error message => { error := some message, sent := [post], state := st }
          | Except.ok createdCar =>
            let st := { st with carForm := initialCar }
            let st := { st with status :=
              { tone := "success", text := "Car created successfully." } }
            let st := addActivity H env.tick ("Car \"" ++ make ++ " " ++ model ++ "\" added") st
            let synced := syncAll H "Car create" env.sync st
            let st := synced.state
            let st :=
              if truthy (some createdCar) && truthy (createdCar.get "id") then
                { st with selectedCarId := some (toStr H (createdCar.get "id")) }
              else st
            let st := { st with activeTab := "cars" }
            { error := none, sent := post :: synced.sent, state := st }

/-- `bookingDate` (App.jsx:128-133): the instant of local midnight of a calendar date, in
milliseconds; `none` is `null`. -/
def bookingDate (H : Host) (value : String) : Option ℤ :=
  if value = "" then none
  else H.parseDate (value ++ "T00:00:00")

/-- `millisecondsPerDay` (App.jsx:604). -/
def millisecondsPerDay : ℚ := 24 * 60 * 60 * 1000

/-- Environment of one `createBooking`: `Date.now()` for the id, the instant of
`new Date()` for `createdAt`, and the readings of its `addActivity`. -/
structure BookingEnv where
  now : ℕ
  created : ℤ
  tick : Tick

/-- `createBooking` (App.jsx:579-626). It sends nothing to the gateway. -/
def createBooking (H : Host) (env : BookingEnv) (st : State) : Run :=
  let customerName := H.trim st.bookingForm.customerName
  let startDate := st.bookingForm.startDate
  let endDate := st.bookingForm.endDate
  let selected := st.cars.find? (fun item => item.id == st.bookingForm.carId)
  if customerName = "" then
    { error := some "Customer name is required.", sent := [], state := st }
  else
    match selected with
    | none =>
      { error := some "Please select a valid car for this booking.", sent := [], state := st }
    | some selected =>
      if startDate = "" ∨ endDate = "" then
        { error := some "Start and end dates are required.", sent := [], state := st }
      else
        match bookingDate H startDate, bookingDate H endDate with
        | some start, some finish =>
          if finish < start then
            { error := some "End date cannot be earlier than start date.", sent := [],
              state := st }
          else
            let days : ℤ := ⌊((finish - start : ℤ) : ℚ) / millisecondsPerDay⌋ + 1
            let totalPrice : ℚ :=
              H.roundNumber
                ((if selected.pricePerDay ≠ 0 then selected.pricePerDay else 0) * days)
            let booking : Booking :=
              { id := "BK-" ++ sliceLast 6 (natToString env.now),
                customerName := customerName,
                carId := selected.id,
                carLabel := selected.make ++ " " ++ selected.model,
                startDate := startDate,
                endDate := endDate,
                days := days,
                totalPrice := totalPrice,
                status := "CONFIRMED",
                createdAt := H.toISOString env.created }
            let st := { st with bookings := booking :: st.bookings }
            let st := { st with bookingForm := initialBooking }
            let st := { st with status :=
              { tone := "success", text := "Booking " ++ booking.id ++ " created locally." } }
            let st := addActivity H env.tick
              ("Booking " ++ booking.id ++ " scheduled for " ++ customerName) st
            let st := { st with activeTab := "bookings" }
            { error := none, sent := [], state := st }
        | _, _ =>
          { error := some "Please provide valid booking dates.", sent := [], state := st }

/-- Environment of one composer submission. -/
structure ComposerEnv where
  car : CarEnv
  booking : BookingEnv
  tick : Tick

/-- `handleComposerSubmit` (App.jsx:628-644). The create routines read the state of the
render in which the form was submitted. -/
def handleComposerSubmit (H : Host) (env : ComposerEnv) (st : State) : Run :=
  let st := { st with submitting := true }
  let created :=
    if st.composerType = "car" then createCar H env.car st
    else createBooking H env.booking st
  let st :=
    match created.error with
    | none => created.state
    | some message =>
      let st := { created.state with status :=
        { tone := "error", text := if message ≠ "" then message else "Could not save record." } }
      addActivity H env.tick "Create action failed" st
  let st := { st with submitting := false }
  { error := none, sent := created.sent, state := st }

/-- `handleDeleteBooking` (App.jsx:414-424); `approved` is the answer of `window.confirm`. -/
def handleDeleteBooking (H : Host) (approved : Bool) (tick : Tick) (id : String)
    (st : State) : State :=
  if !approved then st
  else
    let st := { st with bookings := st.bookings.filter (fun item => item.id != id) }
    let st := { st with status := { tone := "success", text := "Booking " ++ id ++ " deleted." } }
    addActivity H tick ("Booking " ++ id ++ " removed") st

/-- Environment of one `handleAuthSubmit`: the answer of the gateway and the readings of
its `addActivity`. -/
structure AuthEnv where
  response : Option Response
  tick : Tick

/-- `handleAuthSubmit` (App.jsx:471-526). It catches every failure, so it never throws. -/
def handleAuthSubmit (H : Host) (env : AuthEnv) (st : State) : Run :=
  let form := st.authForm
  let mode := st.authMode
  let st := { st with authLoading := true }
  let st := { st with authError := "" }
  let email := H.trim form.email
  let password := form.password
  let name := H.trim form.name
  let role := form.role
  let call : Request :=
    if mode = "register" then
      { url := REGISTER_URL H, method := "POST",
        body := some (Json.obj [("name", Json.str name), ("email", Json.str email),
          ("password", Json.str password), ("role", Json.str role)]) }
    else
      { url := LOGIN_URL H, method := "POST",
        body := some (Json.obj [("email", Json.str email), ("password", Json.str password)]) }
  let attempt : Except String State :=
    match request H call.url env.response with
    | Except.error message => Except.error message
    | Except.ok payload =>
      if !truthy (some payload) || !truthy (payload.get "email") ||
          !truthy (payload.get "role") then
        Except.error "Unexpected authentication response."
      else
        let authenticatedUser : SessionUser :=
          { userId := payload.get "userId",
            name := payload.get "name",
            email := payload.get "email",
            role := payload.get "role" }
        let st := { st with sessionUser := some authenticatedUser }
        let st := { st with authForm := initialAuthForm }
        let greeting :=
          toStr H (jsOr (payload.get "message") (some (Json.str "Authentication successful.")))
        let st := { st with authMessage := greeting }
        let st := { st with status :=
          { tone := "success",
            text := "Welcome " ++
              toStr H (jsOr authenticatedUser.name authenticatedUser.email) ++ "." } }
        let st := addActivity H env.tick ("Signed in as " ++ toStr H authenticatedUser.role) st
        let composer := if strictEqStr authenticatedUser.role "ADMIN" then "car" else "booking"
        let st := { st with composerType := composer }
        Except.ok st
  let st :=
    match attempt with
    | Except.ok st => st
    | Except.error message =>
      { st with authError := if message ≠ "" then message else "Authentication failed." }
  let st := { st with authLoading := false }
  { error := none, sent := [call], state := st }

/-! ## Derivation engine: bookings -/

/-- `enrichedBookings` (App.jsx:301-311). -/
def enrichedBookings (bookings : List Booking) (cars : List Car) : List Booking :=
  bookings.map fun item =>
    let matchedCar := cars.find? (fun car => car.id == item.carId)
    let carLabel :=
      match matchedCar with
      | some matchedCar => matchedCar.make ++ " " ++ matchedCar.model
      | none => if item.carLabel ≠ "" then item.carLabel else "Car #" ++ item.carId
    { item with carLabel := carLabel }

/-- The comparator of `filteredBookings` (App.jsx:326-334). -/
def bookingCompare (H : Host) (left right : Booking) : ℚ :=
  match bookingDate H left.startDate, bookingDate H right.startDate with
  | none, none => 0
  | none, some _ => 1
  | some _, none => -1
  | some leftDate, some rightDate => ((leftDate - rightDate : ℤ) : ℚ)

/-- The filter of `filteredBookings` (App.jsx:315-324). -/
def bookingMatches (H : Host) (query : String) (item : Booking) : Bool :=
  if query = "" then true
  else
    includes (normalize H item.id) query ||
    includes (normalize H item.customerName) query ||
    includes (normalize H item.carLabel) query ||
    includes (normalize H item.startDate) query ||
    includes (normalize H item.endDate) query

/-- `filteredBookings` (App.jsx:313-335) over the enriched bookings. -/
def filteredBookings (H : Host) (enriched : List Booking) (queryBookings : String) :
    List Booking :=
  let query := normalize H queryBookings
  let filtered := enriched.filter (bookingMatches H query)
  arraySort (bookingCompare H) filtered

/-- The filter of `filteredCars` (App.jsx:272-280), for the normalized query. -/
def carMatches (H : Host) (query : String) (item : Car) : Bool :=
  if query = "" then true
  else
    includes (normalize H item.id) query ||
    includes (normalize H item.make) query ||
    includes (normalize H item.model) query ||
    includes (normalize H (H.numberToString item.pricePerDay)) query

/-! ## Derivation engine: pickups, metrics and insights -/

/-- `nextPickup` (App.jsx:337-343) over the filtered bookings; `now` is the instant of
`new Date()`, `none` is `undefined`. -/
def nextPickup (H : Host) (filtered : List Booking) (now : ℤ) : Option Booking :=
  filtered.find? fun item =>
    match bookingDate H item.startDate with
    | some start => decide (start ≥ now)
    | none => false

/-- `bookingsNext24h` (App.jsx:345-352) over the filtered bookings. -/
def bookingsNext24h (H : Host) (filtered : List Booking) (now : ℤ) : ℕ :=
  let cutoff : ℤ := now + 24 * 60 * 60 * 1000
  (filtered.filter fun item =>
    match bookingDate H item.startDate with
    | some start => decide (start ≥ now) && decide (start ≤ cutoff)
    | none => false).length

/-- The figures of `metrics` (App.jsx:354-371), in the order of its four cards. The two
money figures are the numbers handed to `formatCurrency`. -/
structure Metrics where
  fleetCars : ℕ
  availableNow : ℕ
  avgDailyRate : ℚ
  localRevenue : ℚ

/-- `metrics` (App.jsx:354-371). Each addition of a `reduce` and the division are double
operations. -/
def metrics (H : Host) (bookings : List Booking) (cars : List Car) : Metrics :=
  let available := (cars.filter fun item => item.available).length
  let rates := cars.map fun item => if item.pricePerDay ≠ 0 then item.pricePerDay else 0
  let avgRate : ℚ :=
    if rates.length ≠ 0 then
      H.roundNumber
        (rates.foldl (fun sum value => H.roundNumber (sum + value)) 0 / rates.length)
    else 0
  let localRevenue : ℚ :=
    bookings.foldl
      (fun sum item =>
        H.roundNumber (sum + (if item.totalPrice ≠ 0 then item.totalPrice else 0))) 0
  { fleetCars := cars.length, availableNow := available, avgDailyRate := avgRate,
    localRevenue := localRevenue }

/-- The figures of `insightsRows` (App.jsx:447-459), in the order of its four rows. The
highest rate is the number handed to `formatCurrency`. -/
structure Insights where
  upcoming : ℕ
  active : ℕ
  busy : ℕ
  topRate : ℚ

/-- `insightsRows` (App.jsx:447-459); `Math.max(...rates)` is only evaluated for a
non-empty fleet. -/
def insightsRows (pickupsNext24h : ℕ) (bookings : List Booking) (cars : List Car) :
    Insights :=
  let unavailable := (cars.filter fun item => !item.available).length
  let highestRate : ℚ :=
    match cars.map (fun item => if item.pricePerDay ≠ 0 then item.pricePerDay else 0) with
    | [] => 0
    | rate :: rates => rates.foldl max rate
  { upcoming := pickupsNext24h, active := bookings.length, busy := unavailable,
    topRate := highestRate }

/-! ## Session gate: logout -/

/-- `handleLogout` (App.jsx:528-535). -/
def handleLogout (st : State) : State :=
  let st := { st with sessionUser := none }
  let st := { st with authMode := "login" }
  let st := { st with authForm := initialAuthForm }
  let st := { st with authError := "" }
  let st := { st with authMessage := "You have been signed out." }
  { st with status := { tone := "neutral", text := "Sign in to resume rental operations." } }

/-- The effect on `[sessionUser, syncAll]` (App.jsx:254-257). It runs after the render in
which `sessionUser` changed, and refreshes the fleet when there is a session. -/
def sessionEffect (H : Host) (env : SyncEnv) (st : State) : Run :=
  match st.sessionUser with
  | none => { error := none, sent := [], state := st }
  | some _ => syncAll H "Initial load" env st

/-! ## The error message of the gateway, in the words of the specification -/

/-- The first truthy value among the fields `message`, `error`, `detail`, `title` of a
parsed body, in that order. -/
def firstTruthyField (parsed : Json) : Option Json :=
  ["message", "error", "detail", "title"].findSome? fun key =>
    if truthy (parsed.get key) then parsed.get key else none

/-- The message synthesized when the body offers none. -/
def fallbackMessage (url : String) (status : ℕ) : String :=
  if status = 500 ∧ includes url "/api/" then
    "Backend API is unavailable. Start Spring Boot on port 8081."
  else "Request failed (" ++ natToString status ++ ")"

/-! ## Double arithmetic -/

/-- A positive double of the normal range, `y = m * 2 ^ e` with a 53-bit mantissa `m`, is
the rounding of `x` when it lies within half a unit of the last place of `x`, with an even
mantissa when it lies exactly half a unit away. -/
def IsNearestDouble (x y : ℚ) : Prop :=
  ∃ (m : ℕ) (e : ℤ), 2 ^ 52 ≤ m ∧ m < 2 ^ 53 ∧ y = (m : ℚ) * (2 : ℚ) ^ e ∧
    |x - y| ≤ (2 : ℚ) ^ e / 2 ∧ (|x - y| = (2 : ℚ) ^ e / 2 → m % 2 = 0)

/-! ## Sequences of log appends -/

/-- The entry that one call of `addActivity` builds from its readings and its message. -/
def activityEntry (H : Host) (call : Tick × String) : ActivityEvent :=
  { id := natToString call.1.now ++ "-" ++ H.numberToString call.1.random,
    message := call.2,
    atTime := call.1.clock }

/-- A sequence of `addActivity` calls, the first call first. -/
def addActivities (H : Host) (calls : List (Tick × String)) (st : State) : State :=
  calls.foldl (fun st call => addActivity H call.1 call.2 st) st

/-! ## Fixtures for the worked examples -/

/-- A small host: ASCII lower-casing and trimming, decimal text of integers (other
rationals print as `num/den`), and the numbers, dates and response bodies that the examples
use. Dates are read as UTC. Its `roundNumber` rounds the two inexact results that the
examples meet (three times the double `0.1`, and a third of the double that this gives,
see `demoHost_rounds_to_nearest`); every other result of the examples is a double
already. -/
def demoHost : Host :=
  { toLowerCase := fun s => String.mk (s.data.map Char.toLower),
    trim := fun s =>
      String.mk ((s.data.dropWhile Char.isWhitespace).reverse.dropWhile
        Char.isWhitespace).reverse,
    numberToString := fun q =>
      if q.den = 1 then (if q.num < 0 then "-" else "") ++ natToString q.num.natAbs
      else natToString q.num.natAbs ++ "/" ++ natToString q.den,
    toNumber := fun s => if s = "45" then some 45 else if s = "" then some 0 else none,
    roundNumber := fun q =>
      if q = 10808639105689191 / 36028797018963968 then
        5404319552844596 / 18014398509481984
      else if q = 5404319552844596 / 18014398509481984 / 3 then
        7205759403792795 / 72057594037927936
      else q,
    localeCompare := fun a b => if a < b then -1 else if a = b then 0 else 1,
    parseDate := fun s =>
      if s = "2024-03-01T00:00:00" then some 1709251200000
      else if s = "2024-03-03T00:00:00" then some 1709424000000
      else none,
    toISOString := fun _ => "2024-02-20T10:00:00.000Z",
    jsonParse := fun s =>
      if s = "\x7b\"message\":\"db down\"\x7d" then
        some (Json.obj [("message", Json.str "db down")])
      else if s = "\x7b\"email\":\"a@b.com\",\"role\":\"ADMIN\"\x7d" then
        some (Json.obj [("email", Json.str "a@b.com"), ("role", Json.str "ADMIN")])
      else if s = "[]" then some (Json.arr [])
      else if s = "\x7b\"message\":\"\",\"error\":\"boom\"\x7d" then
        some (Json.obj [("message", Json.str ""), ("error", Json.str "boom")])
      else none,
    jsonToString := fun _ => "[object Object]",
    carOfJson := fun _ =>
      { id := "", make := "", model := "", pricePerDay := 0, available := false },
    apiBaseUrl := "http://localhost:8081" }

def demoTick : Tick :=
  { now := 1700000000000, random := 1 / 2, clock := "10:00 AM" }

def demoCar : Car :=
  { id := "7", make := "Toyota", model := "Corolla", pricePerDay := 45, available := true }

def demoCustomer : SessionUser :=
  { userId := none, name := none, email := some (Json.str "c@d.com"),
    role := some (Json.str "CUSTOMER") }

/-- A signed-in customer with one car in the fleet and a booking form for 1-3 March. -/
def demoState : State :=
  { initialState with
    cars := [demoCar],
    composerType := "booking",
    sessionUser := some demoCustomer,
    bookingForm := { customerName := "Ada", carId := "7",
                     startDate := "2024-03-01", endDate := "2024-03-03" } }

/-- The state `demoState` with the two dates of the booking form exchanged. -/
def demoStateReversed : State :=
  { demoState with
    bookingForm := { customerName := "Ada", carId := "7",
                     startDate := "2024-03-03", endDate := "2024-03-01" } }

def demoBookingEnv : BookingEnv :=
  { now := 1700000000000, created := 1700000000000, tick := demoTick }

/-- The gateway answers `500` with the body `{"message":"db down"}`. -/
def demoFailResponse : Response :=
  { status := 500, body := "\x7b\"message\":\"db down\"\x7d" }

def demoSyncEnv : SyncEnv :=
  { response := some demoFailResponse, clock := "10:00 AM", tick := demoTick }

def demoComposerEnv : ComposerEnv :=
  { car := { response := none, tick := demoTick, sync := demoSyncEnv },
    booking := demoBookingEnv,
    tick := demoTick }

/-- Thirteen appends with the messages `m1`, ..., `m13`. -/
def demoCalls : List (Tick × String) :=
  (List.range 13).map (fun i => (demoTick, "m" ++ natToString (i + 1)))

/-- A second booking is created 1000 seconds after the first one. -/
def demoLaterEnv : BookingEnv :=
  { now := 1700001000000, created := 1700001000000, tick := demoTick }

/-- The state after two bookings made from `demoState`: the first with the clock of
`demoBookingEnv`, then, the form filled in again, the second 1000 seconds later. -/
def demoTwoBookings : State :=
  (createBooking demoHost demoLaterEnv
    { (createBooking demoHost demoBookingEnv demoState).state with
      bookingForm := demoState.bookingForm }).state

/-- The gateway answers the login with `200` and the payload
`{"email":"a@b.com","role":"ADMIN"}`. -/
def demoLoginResponse : Response :=
  { status := 200, body := "\x7b\"email\":\"a@b.com\",\"role\":\"ADMIN\"\x7d" }

def demoAuthEnv : AuthEnv :=
  { response := some demoLoginResponse, tick := demoTick }

def demoAdmin : SessionUser :=
  { userId := none, name := none, email := some (Json.str "a@b.com"),
    role := some (Json.str "ADMIN") }

def demoCarForm : CarForm :=
  { make := "Honda", model := "Civic", pricePerDay := "45", available := true }

/-- A signed-in admin with a filled-in car form and an empty activity log. -/
def demoAdminState : State :=
  { initialState with sessionUser := some demoAdmin, carForm := demoCarForm }

/-- The gateway answers the `POST` with `201` and no body. -/
def demoCreatedResponse : Response :=
  { status := 201, body := "" }

/-- The gateway answers the car fetch with `200` and the empty array. -/
def demoFleetResponse : Response :=
  { status := 200, body := "[]" }

def demoRefreshEnv : SyncEnv :=
  { response := some demoFleetResponse, clock := "10:01 AM", tick := demoTick }

def demoCarEnv : CarEnv :=
  { response := some demoCreatedResponse, tick := demoTick, sync := demoRefreshEnv }

/-- The gateway answers `400` with the body `{"message":"","error":"boom"}`. -/
def demoBadRequest : Response :=
  { status := 400, body := "\x7b\"message\":\"\",\"error\":\"boom\"\x7d" }

/-- A booking of Ada that starts on 1 March 2024. -/
def demoBooking : Booking :=
  { id := "BK-000000", customerName := "Ada", carId := "7", carLabel := "Toyota Corolla",
    startDate := "2024-03-01", endDate := "2024-03-03", days := 3, totalPrice := 135,
    status := "CONFIRMED", createdAt := "2024-02-20T10:00:00.000Z" }

/-- The double that the literal `0.1` denotes. -/
def demoTenth : ℚ := 3602879701896397 / 36028797018963968

/-- The car of `demoState`, priced at `0.1` a day. -/
def demoDecimalCar : Car :=
  { id := "7", make := "Toyota", model := "Corolla", pricePerDay := demoTenth,
    available := true }

/-- The state `demoState` with its car priced at `0.1` a day. -/
def demoDecimalState : State :=
  { demoState with cars := [demoDecimalCar] }

/-- Three cars priced at `0.1` a day. -/
def demoDecimalFleet : List Car :=
  [demoDecimalCar, { demoDecimalCar with id := "8" }, { demoDecimalCar with id := "9" }]

/-- Three cars priced at 45, 50 and 70 a day. -/
def demoFleet : List Car :=
  [demoCar, { demoCar with id := "8", pricePerDay := 50, available := false },
   { demoCar with id := "9", pricePerDay := 70 }]

/-! ## Facts about the stable sort -/

theorem arraySort_eq_insertionSort {α : Type} (cmp : α → α → ℚ) (l : List α) :
    arraySort cmp l = List.insertionSort (fun a b => cmp a b ≤ 0) l := by
  have hins : ∀ (a : α) (l : List α),
      insertSorted cmp a l = List.orderedInsert (fun a b => cmp a b ≤ 0) a l := by
    intro a l
    induction l with
    | nil => rfl
    | cons b l ih => simp [insertSorted, List.orderedInsert, ih]
  induction l with
  | nil => rfl
  | cons a l ih => simp [arraySort, List.insertionSort, ih, hins]

theorem arraySort_perm {α : Type} (cmp : α → α → ℚ) (l : List α) :
    (arraySort cmp l).Perm l := by
  rw [arraySort_eq_insertionSort]
  exact List.perm_insertionSort _ l

/-- For a comparator whose `≤ 0` relation is total and transitive the result is sorted. -/
theorem arraySort_pairwise {α : Type} (cmp : α → α → ℚ)
    (htot : ∀ a b, cmp a b ≤ 0 ∨ cmp b a ≤ 0)
    (htrans : ∀ a b c, cmp a b ≤ 0 → cmp b c ≤ 0 → cmp a c ≤ 0) (l : List α) :
    (arraySort cmp l).Pairwise (fun a b => cmp a b ≤ 0) := by
  rw [arraySort_eq_insertionSort]
  haveI : IsTotal α (fun a b => cmp a b ≤ 0) := ⟨htot⟩
  haveI : IsTrans α (fun a b => cmp a b ≤ 0) := ⟨htrans⟩
  exact List.sorted_insertionSort (fun a b => cmp a b ≤ 0) l

theorem recommendedCompare_le_iff (a b : Car) :
    recommendedCompare a b ≤ 0 ↔
      (a.available = true ∧ b.available = false) ∨
      (a.available = b.available ∧ a.pricePerDay ≤ b.pricePerDay) := by
  unfold recommendedCompare
  cases ha : a.available <;> cases hb : b.available <;> simp

theorem recommendedCompare_total (a b : Car) :
    recommendedCompare a b ≤ 0 ∨ recommendedCompare b a ≤ 0 := by
  rw [recommendedCompare_le_iff, recommendedCompare_le_iff]
  cases ha : a.available <;> cases hb : b.available <;> simp [le_total]

theorem recommendedCompare_trans (a b c : Car) (hab : recommendedCompare a b ≤ 0)
    (hbc : recommendedCompare b c ≤ 0) : recommendedCompare a c ≤ 0 := by
  rw [recommendedCompare_le_iff] at *
  cases ha : a.available <;> cases hb : b.available <;> cases hc : c.available <;>
    simp_all <;> exact le_trans hab hbc

/-- A list in which no element failing `p` precedes one satisfying `p` is its `p`-part
followed by its non-`p`-part. -/
theorem eq_filter_append_of_pairwise {α : Type} (p : α → Bool) (l : List α)
    (h : l.Pairwise (fun a b => ¬ (p a = false ∧ p b = true))) :
    l = l.filter p ++ l.filter (fun a => !p a) := by
  induction l with
  | nil => rfl
  | cons a l ih =>
    rw [List.pairwise_cons] at h
    cases hpa : p a
    · have hall : ∀ b ∈ l, p b = false := by
        intro b hb
        have := h.1 b hb
        simpa [hpa] using this
      have h1 : l.filter p = [] := by
        rw [List.filter_eq_nil_iff]
        intro b hb
        simp [hall b hb]
      have h2 : l.filter (fun a => !p a) = l := by
        rw [List.filter_eq_self]
        intro b hb
        simp [hall b hb]
      simp [List.filter_cons, hpa, h1, h2]
    · have := ih h.2
      simp only [List.filter_cons, hpa, Bool.not_true, if_true, List.cons_append]
      simp only [Bool.false_eq_true, if_false]
      exact congrArg _ this

/-- The view of `filteredCars` is a rearrangement of the cars that pass `carMatches`. -/
theorem filteredCars_perm (H : Host) (cars : List Car) (queryCars sortBy : String) :
    (filteredCars H cars queryCars sortBy).Perm
      (cars.filter (carMatches H (normalize H queryCars))) := by
  have hfilter : (cars.filter fun item =>
      if normalize H queryCars = "" then true
      else
        includes (normalize H item.id) (normalize H queryCars) ||
        includes (normalize H item.make) (normalize H queryCars) ||
        includes (normalize H item.model) (normalize H queryCars) ||
        includes (normalize H (H.numberToString item.pricePerDay)) (normalize H queryCars)) =
      cars.filter (carMatches H (normalize H queryCars)) := rfl
  unfold filteredCars
  dsimp only
  rw [hfilter]
  by_cases h1 : sortBy = "price-asc"
  · rw [if_pos h1]
    exact arraySort_perm _ _
  · rw [if_neg h1]
    by_cases h2 : sortBy = "price-desc"
    · rw [if_pos h2]
      exact arraySort_perm _ _
    · rw [if_neg h2]
      by_cases h3 : sortBy = "make-asc"
      · rw [if_pos h3]
        exact arraySort_perm _ _
      · rw [if_neg h3]
        exact arraySort_perm _ _

/-! ## Claims -/

/-- C1: for every car list and query, the `recommended` view of `filteredCars` is a
rearrangement of the cars of the list that pass the search filter (each such car is listed
as often as in the list, and no other car), it is its available cars followed by its
unavailable cars (no unavailable car precedes an available one), and the prices are
non-decreasing within the available cars and within the unavailable cars. -/
theorem C1_recommended_available_first_price_ascending
    (H : Host) (cars : List Car) (queryCars : String) :
    (filteredCars H cars queryCars "recommended").Perm
        (cars.filter (carMatches H (normalize H queryCars))) ∧
    (filteredCars H cars queryCars "recommended").Pairwise
        (fun a b => ¬ (a.available = false ∧ b.available = true)) ∧
    filteredCars H cars queryCars "recommended" =
        (filteredCars H cars queryCars "recommended").filter (fun c => c.available) ++
        (filteredCars H cars queryCars "recommended").filter (fun c => !c.available) ∧
    ((filteredCars H cars queryCars "recommended").filter (fun c => c.available)).Pairwise
        (fun a b => a.pricePerDay ≤ b.pricePerDay) ∧
    ((filteredCars H cars queryCars "recommended").filter (fun c => !c.available)).Pairwise
        (fun a b => a.pricePerDay ≤ b.pricePerDay) := by
  have hsorted : (filteredCars H cars queryCars "recommended").Pairwise
      (fun a b => recommendedCompare a b ≤ 0) := by
    simp only [filteredCars]
    rw [if_neg (by decide), if_neg (by decide), if_neg (by decide)]
    exact arraySort_pairwise _ recommendedCompare_total recommendedCompare_trans _
  have hgroups : (filteredCars H cars queryCars "recommended").Pairwise
      (fun a b => ¬ (a.available = false ∧ b.available = true)) := by
    refine hsorted.imp ?_
    intro a b hab
    rw [recommendedCompare_le_iff] at hab
    rintro ⟨ha, hb⟩
    rcases hab with ⟨h1, _⟩ | ⟨h1, _⟩
    · rw [ha] at h1; exact Bool.noConfusion h1
    · rw [ha, hb] at h1; exact Bool.noConfusion h1
  refine ⟨filteredCars_perm H cars queryCars "recommended", hgroups,
    eq_filter_append_of_pairwise (fun c => c.available) _ hgroups, ?_, ?_⟩
  · refine (hsorted.filter _).imp_of_mem ?_
    intro a b ha hb hab
    rw [recommendedCompare_le_iff] at hab
    have ha2 := (List.mem_filter.mp ha).2
    have hb2 := (List.mem_filter.mp hb).2
    rcases hab with ⟨_, h2⟩ | ⟨_, h2⟩
    · simp_all
    · exact h2
  · refine (hsorted.filter _).imp_of_mem ?_
    intro a b ha hb hab
    rw [recommendedCompare_le_iff] at hab
    have ha2 := (List.mem_filter.mp ha).2
    have hb2 := (List.mem_filter.mp hb).2
    rcases hab with ⟨h1, _⟩ | ⟨_, h2⟩
    · simp_all
    · exact h2

theorem bookingDate_ne_empty (H : Host) (value : String) (t : ℤ)
    (h : bookingDate H value = some t) : value ≠ "" := by
  intro hv
  simp [bookingDate, hv] at h

theorem floor_div_millisecondsPerDay (n : ℤ) :
    ⌊((n : ℤ) : ℚ) / millisecondsPerDay⌋ = n / 86400000 := by
  have h : millisecondsPerDay = ((86400000 : ℕ) : ℚ) := by
    norm_num [millisecondsPerDay]
  rw [h, Rat.floor_intCast_div_natCast]
  rfl

/-- What `createBooking` does on a form that passes every check. -/
theorem createBooking_ok (H : Host) (env : BookingEnv) (st : State) (c : Car) (s e : ℤ)
    (hname : H.trim st.bookingForm.customerName ≠ "")
    (hcar : st.cars.find? (fun item => item.id == st.bookingForm.carId) = some c)
    (hs : bookingDate H st.bookingForm.startDate = some s)
    (he : bookingDate H st.bookingForm.endDate = some e)
    (hle : s ≤ e) :
    (createBooking H env st).error = none ∧
    (createBooking H env st).state.bookings =
      { id := "BK-" ++ sliceLast 6 (natToString env.now),
        customerName := H.trim st.bookingForm.customerName,
        carId := c.id,
        carLabel := c.make ++ " " ++ c.model,
        startDate := st.bookingForm.startDate,
        endDate := st.bookingForm.endDate,
        days := ⌊((e - s : ℤ) : ℚ) / millisecondsPerDay⌋ + 1,
        totalPrice := H.roundNumber ((if c.pricePerDay ≠ 0 then c.pricePerDay else 0) *
          ((⌊((e - s : ℤ) : ℚ) / millisecondsPerDay⌋ + 1 : ℤ) : ℚ)),
        status := "CONFIRMED",
        createdAt := H.toISOString env.created } :: st.bookings := by
  have hs0 := bookingDate_ne_empty H _ _ hs
  have he0 := bookingDate_ne_empty H _ _ he
  have hlt : ¬ e < s := not_lt.mpr hle
  simp [createBooking, hname, hcar, hs, he, hs0, he0, hlt, addActivity]

/-- The two roundings of `demoHost` are roundings to the nearest double: three times the
double `0.1` lies exactly between two doubles and goes to the one with the even mantissa,
which prints as `0.30000000000000004`; a third of that goes to the double that prints as
`0.10000000000000002`. -/
theorem demoHost_rounds_to_nearest :
    IsNearestDouble (demoTenth * 3) (demoHost.roundNumber (demoTenth * 3)) ∧
    IsNearestDouble (demoHost.roundNumber (demoTenth * 3) / 3)
      (demoHost.roundNumber (demoHost.roundNumber (demoTenth * 3) / 3)) ∧
    demoHost.roundNumber (demoTenth * 3) = 5404319552844596 / 18014398509481984 ∧
    demoHost.roundNumber (demoHost.roundNumber (demoTenth * 3) / 3) =
      7205759403792795 / 72057594037927936 := by
  have h1 : demoHost.roundNumber (demoTenth * 3) = 5404319552844596 / 18014398509481984 := by
    simp only [demoHost, demoTenth]
    norm_num
  have h2 : demoHost.roundNumber ((5404319552844596 : ℚ) / 18014398509481984 / 3) =
      7205759403792795 / 72057594037927936 := by
    simp only [demoHost]
    norm_num
  refine ⟨?_, ?_, h1, by rw [h1, h2]⟩
  · rw [h1]
    refine ⟨5404319552844596, -54, by norm_num, by norm_num, by norm_num, ?_, ?_⟩
    · rw [abs_le]
      constructor <;> norm_num [demoTenth]
    · intro _
      norm_num
  · rw [h1, h2]
    refine ⟨7205759403792795, -56, by norm_num, by norm_num, by norm_num, ?_, ?_⟩
    · rw [abs_le]
      constructor <;> norm_num
    · intro h
      exfalso
      rw [abs_eq (by norm_num)] at h
      rcases h with h | h <;> norm_num at h

/-- C2 (as stated, refuted): Ada books the car priced at the double `0.1` for 1-3 March,
3 days; the stored `totalPrice` is the double product, which prints as
`0.30000000000000004`, and is not 3 times the price. -/
theorem C2_counterexample :
    demoHost.trim demoDecimalState.bookingForm.customerName ≠ "" ∧
    demoDecimalState.cars.find? (fun item => item.id == demoDecimalState.bookingForm.carId) =
      some demoDecimalCar ∧
    bookingDate demoHost demoDecimalState.bookingForm.startDate = some 1709251200000 ∧
    bookingDate demoHost demoDecimalState.bookingForm.endDate = some 1709424000000 ∧
    (createBooking demoHost demoBookingEnv demoDecimalState).error = none ∧
    ∃ b rest, (createBooking demoHost demoBookingEnv demoDecimalState).state.bookings =
        b :: rest ∧
      b.days = 3 ∧
      b.totalPrice = 5404319552844596 / 18014398509481984 ∧
      (b.days : ℚ) * demoDecimalCar.pricePerDay = 10808639105689191 / 36028797018963968 ∧
      b.totalPrice ≠ (b.days : ℚ) * demoDecimalCar.pricePerDay := by
  obtain ⟨hok, hled⟩ := createBooking_ok demoHost demoBookingEnv demoDecimalState
    demoDecimalCar 1709251200000 1709424000000 (by decide) rfl (by decide) (by decide)
    (by decide)
  have hdays : ⌊(((1709424000000 : ℤ) - 1709251200000 : ℤ) : ℚ) / millisecondsPerDay⌋ + 1 =
      3 := by
    rw [floor_div_millisecondsPerDay]
    norm_num
  rw [hdays] at hled
  have hprice : demoDecimalCar.pricePerDay = demoTenth := rfl
  have htenth : demoTenth ≠ 0 := by norm_num [demoTenth]
  have hround := demoHost_rounds_to_nearest.2.2.1
  refine ⟨by decide, rfl, by decide, by decide, hok, _, _, hled, rfl, ?_, ?_, ?_⟩
  · show demoHost.roundNumber
      ((if demoDecimalCar.pricePerDay ≠ 0 then demoDecimalCar.pricePerDay else 0) *
        ((3 : ℤ) : ℚ)) = _
    rw [hprice, if_pos htenth]
    exact_mod_cast hround
  · show ((3 : ℤ) : ℚ) * demoDecimalCar.pricePerDay = _
    rw [hprice]
    norm_num [demoTenth]
  · show demoHost.roundNumber
      ((if demoDecimalCar.pricePerDay ≠ 0 then demoDecimalCar.pricePerDay else 0) *
        ((3 : ℤ) : ℚ)) ≠ ((3 : ℤ) : ℚ) * demoDecimalCar.pricePerDay
    rw [hprice, if_pos htenth]
    have h3 : demoHost.roundNumber (demoTenth * ((3 : ℤ) : ℚ)) =
        5404319552844596 / 18014398509481984 := by exact_mod_cast hround
    rw [h3]
    norm_num [demoTenth]

/-- C2 (amended): when the booking form passes validation (customer name present, car
reference resolved to `c`, both dates parsed to `s ≤ e`), `createBooking` succeeds and the
booking at the head of the ledger has `days = ⌊(e - s) / 86400000⌋ + 1`, and its
`totalPrice` is the double product of the price of `c` at that moment and `days`: the
double nearest to `days * c.pricePerDay`, which is `days * c.pricePerDay` itself whenever
that number is a double. -/
theorem C2_createBooking_days_and_totalPrice
    (H : Host) (env : BookingEnv) (st : State) (c : Car) (s e : ℤ)
    (hname : H.trim st.bookingForm.customerName ≠ "")
    (hcar : st.cars.find? (fun item => item.id == st.bookingForm.carId) = some c)
    (hs : bookingDate H st.bookingForm.startDate = some s)
    (he : bookingDate H st.bookingForm.endDate = some e)
    (hle : s ≤ e) :
    (createBooking H env st).error = none ∧
    ∃ b rest, (createBooking H env st).state.bookings = b :: rest ∧ rest = st.bookings ∧
      b.days = ⌊((e - s : ℤ) : ℚ) / 86400000⌋ + 1 ∧
      b.days = (e - s) / 86400000 + 1 ∧
      b.totalPrice = H.roundNumber ((b.days : ℚ) * c.pricePerDay) ∧
      (H.roundNumber ((b.days : ℚ) * c.pricePerDay) = (b.days : ℚ) * c.pricePerDay →
        b.totalPrice = (b.days : ℚ) * c.pricePerDay) := by
  obtain ⟨hok, hled⟩ := createBooking_ok H env st c s e hname hcar hs he hle
  have htotal : H.roundNumber ((if c.pricePerDay ≠ 0 then c.pricePerDay else 0) *
      ((⌊((e - s : ℤ) : ℚ) / millisecondsPerDay⌋ + 1 : ℤ) : ℚ)) =
      H.roundNumber (((⌊((e - s : ℤ) : ℚ) / millisecondsPerDay⌋ + 1 : ℤ) : ℚ) *
        c.pricePerDay) := by
    by_cases hp : c.pricePerDay = 0
    · simp [hp]
    · simp [hp, mul_comm]
  refine ⟨hok, _, _, hled, rfl, ?_, ?_, htotal, ?_⟩
  · show ⌊((e - s : ℤ) : ℚ) / millisecondsPerDay⌋ + 1 = _
    norm_num [millisecondsPerDay]
  · show ⌊((e - s : ℤ) : ℚ) / millisecondsPerDay⌋ + 1 = _
    rw [floor_div_millisecondsPerDay]
  · intro hexact
    exact htotal.trans hexact

/-- C2 (amended) at `demoState`: Ada books car 7 (45 a day) from 1 March to 3 March 2024. -/
theorem C2_witness :
    (demoHost.trim demoState.bookingForm.customerName ≠ "" ∧
     demoState.cars.find? (fun item => item.id == demoState.bookingForm.carId) =
       some demoCar ∧
     bookingDate demoHost demoState.bookingForm.startDate = some 1709251200000 ∧
     bookingDate demoHost demoState.bookingForm.endDate = some 1709424000000 ∧
     (1709251200000 : ℤ) ≤ 1709424000000) ∧
    (createBooking demoHost demoBookingEnv demoState).error = none ∧
    ∃ b rest, (createBooking demoHost demoBookingEnv demoState).state.bookings = b :: rest ∧
      rest = demoState.bookings ∧
      b.days = ⌊(((1709424000000 : ℤ) - 1709251200000 : ℤ) : ℚ) / 86400000⌋ + 1 ∧
      b.days = ((1709424000000 : ℤ) - 1709251200000) / 86400000 + 1 ∧
      b.totalPrice = demoHost.roundNumber ((b.days : ℚ) * demoCar.pricePerDay) ∧
      (demoHost.roundNumber ((b.days : ℚ) * demoCar.pricePerDay) =
          (b.days : ℚ) * demoCar.pricePerDay →
        b.totalPrice = (b.days : ℚ) * demoCar.pricePerDay) :=
  ⟨⟨by decide, by decide, by decide, by decide, by decide⟩,
   C2_createBooking_days_and_totalPrice demoHost demoBookingEnv demoState demoCar
     1709251200000 1709424000000 (by decide) (by decide) (by decide) (by decide) (by decide)⟩

/-- With an end date that parses strictly before the start date, `createBooking` throws one
of its validation errors and returns the state untouched, sending nothing. -/
theorem createBooking_end_before_start (H : Host) (env : BookingEnv) (st : State) (s e : ℤ)
    (hs : bookingDate H st.bookingForm.startDate = some s)
    (he : bookingDate H st.bookingForm.endDate = some e)
    (hlt : e < s) :
    ∃ message : String,
      (message = "Customer name is required." ∨
        message = "Please select a valid car for this booking." ∨
        message = "End date cannot be earlier than start date.") ∧
      createBooking H env st = { error := some message, sent := [], state := st } := by
  have hs0 := bookingDate_ne_empty H _ _ hs
  have he0 := bookingDate_ne_empty H _ _ he
  by_cases hname : H.trim st.bookingForm.customerName = ""
  · exact ⟨_, Or.inl rfl, by simp [createBooking, hname]⟩
  · cases hcar : st.cars.find? (fun item => item.id == st.bookingForm.carId) with
    | none => exact ⟨_, Or.inr (Or.inl rfl), by simp [createBooking, hname, hcar]⟩
    | some c =>
      exact ⟨_, Or.inr (Or.inr rfl),
        by simp [createBooking, hname, hcar, hs, he, hs0, he0, hlt]⟩

/-- C3 (as stated, refuted): on `demoStateReversed`, whose end date 1 March parses before
its start date 3 March, the submission of the booking composer changes the status banner
and the activity log. -/
theorem C3_counterexample :
    bookingDate demoHost demoStateReversed.bookingForm.startDate = some 1709424000000 ∧
    bookingDate demoHost demoStateReversed.bookingForm.endDate = some 1709251200000 ∧
    (1709251200000 : ℤ) < 1709424000000 ∧
    demoStateReversed.status =
      { tone := "neutral", text := "Connecting to rental operations..." } ∧
    (handleComposerSubmit demoHost demoComposerEnv demoStateReversed).state.status =
      { tone := "error", text := "End date cannot be earlier than start date." } ∧
    demoStateReversed.activity = [] ∧
    ((handleComposerSubmit demoHost demoComposerEnv demoStateReversed).state.activity).map
      (fun event => event.message) = ["Create action failed"] := by
  refine ⟨by decide, by decide, by decide, rfl, ?_, rfl, ?_⟩
  · obtain ⟨message, hmsg, hrun⟩ := createBooking_end_before_start demoHost demoBookingEnv
      { demoStateReversed with submitting := true } 1709424000000 1709251200000
      (by decide) (by decide) (by decide)
    have hmsg2 : message = "End date cannot be earlier than start date." := by
      have h2 : (createBooking demoHost demoBookingEnv
          { demoStateReversed with submitting := true }).error =
          some "End date cannot be earlier than start date." := by decide
      rw [hrun] at h2
      exact Option.some.inj h2
    subst hmsg2
    have hbranch : demoStateReversed.composerType ≠ "car" := by decide
    simp only [handleComposerSubmit, demoComposerEnv]
    rw [if_neg hbranch, hrun]
    simp [addActivity]
  · obtain ⟨message, hmsg, hrun⟩ := createBooking_end_before_start demoHost demoBookingEnv
      { demoStateReversed with submitting := true } 1709424000000 1709251200000
      (by decide) (by decide) (by decide)
    have hbranch : demoStateReversed.composerType ≠ "car" := by decide
    simp only [handleComposerSubmit, demoComposerEnv]
    rw [if_neg hbranch, hrun]
    simp [addActivity]
    rfl

/-- C3 (amended): when the end date parses strictly before the start date, `createBooking`
fails with a validation error and itself changes nothing and sends nothing; the submission
handler `handleComposerSubmit` (composer in booking mode) then leaves the booking ledger,
the booking form and the car list as they were, sets the status banner to the error with
the validation message, puts one `Create action failed` entry in front of the activity
log, sends nothing, and ends with the submitting flag cleared. -/
theorem C3_end_before_start_rejected
    (H : Host) (env : ComposerEnv) (st : State) (s e : ℤ)
    (hs : bookingDate H st.bookingForm.startDate = some s)
    (he : bookingDate H st.bookingForm.endDate = some e)
    (hlt : e < s) (hmode : st.composerType ≠ "car") :
    ∃ message : String,
      (message = "Customer name is required." ∨
        message = "Please select a valid car for this booking." ∨
        message = "End date cannot be earlier than start date.") ∧
      createBooking H env.booking st = { error := some message, sent := [], state := st } ∧
      (handleComposerSubmit H env st).error = none ∧
      (handleComposerSubmit H env st).sent = [] ∧
      (handleComposerSubmit H env st).state.bookings = st.bookings ∧
      (handleComposerSubmit H env st).state.bookingForm = st.bookingForm ∧
      (handleComposerSubmit H env st).state.cars = st.cars ∧
      (handleComposerSubmit H env st).state.status = { tone := "error", text := message } ∧
      (handleComposerSubmit H env st).state.activity =
        ({ id := natToString env.tick.now ++ "-" ++ H.numberToString env.tick.random,
           message := "Create action failed",
           atTime := env.tick.clock } :: st.activity).take 12 ∧
      (handleComposerSubmit H env st).state.submitting = false := by
  obtain ⟨message, hmsg, hrun⟩ := createBooking_end_before_start H env.booking st s e hs he hlt
  obtain ⟨message2, _, hrun2⟩ := createBooking_end_before_start H env.booking
    { st with submitting := true } s e hs he hlt
  have hsame : message2 = message := by
    have h1 : (createBooking H env.booking { st with submitting := true }).error =
        (createBooking H env.booking st).error := by
      simp only [createBooking]
      split_ifs <;> first | rfl | (split <;> first | rfl | (split_ifs <;> first | rfl | (split <;> first | rfl | (split_ifs <;> rfl))))
    rw [hrun, hrun2] at h1
    exact Option.some.inj h1
  subst hsame
  have hne : message2 ≠ "" := by
    rcases hmsg with h | h | h <;> rw [h] <;> decide
  refine ⟨message2, hmsg, hrun, ?_⟩
  simp only [handleComposerSubmit]
  rw [if_neg hmode, hrun2]
  simp [addActivity, hne]

/-- C3 (amended) at `demoStateReversed`: start 3 March, end 1 March. -/
theorem C3_witness :
    (bookingDate demoHost demoStateReversed.bookingForm.startDate = some 1709424000000 ∧
     bookingDate demoHost demoStateReversed.bookingForm.endDate = some 1709251200000 ∧
     (1709251200000 : ℤ) < 1709424000000 ∧ demoStateReversed.composerType ≠ "car") ∧
    ∃ message : String,
      (message = "Customer name is required." ∨
        message = "Please select a valid car for this booking." ∨
        message = "End date cannot be earlier than start date.") ∧
      createBooking demoHost demoComposerEnv.booking demoStateReversed =
        { error := some message, sent := [], state := demoStateReversed } ∧
      (handleComposerSubmit demoHost demoComposerEnv demoStateReversed).error = none ∧
      (handleComposerSubmit demoHost demoComposerEnv demoStateReversed).sent = [] ∧
      (handleComposerSubmit demoHost demoComposerEnv demoStateReversed).state.bookings =
        demoStateReversed.bookings ∧
      (handleComposerSubmit demoHost demoComposerEnv demoStateReversed).state.bookingForm =
        demoStateReversed.bookingForm ∧
      (handleComposerSubmit demoHost demoComposerEnv demoStateReversed).state.cars =
        demoStateReversed.cars ∧
      (handleComposerSubmit demoHost demoComposerEnv demoStateReversed).state.status =
        { tone := "error", text := message } ∧
      (handleComposerSubmit demoHost demoComposerEnv demoStateReversed).state.activity =
        ({ id := natToString demoComposerEnv.tick.now ++ "-" ++
             demoHost.numberToString demoComposerEnv.tick.random,
           message := "Create action failed",
           atTime := demoComposerEnv.tick.clock } :: demoStateReversed.activity).take 12 ∧
      (handleComposerSubmit demoHost demoComposerEnv demoStateReversed).state.submitting =
        false :=
  ⟨⟨by decide, by decide, by decide, by decide⟩,
   C3_end_before_start_rejected demoHost demoComposerEnv demoStateReversed
     1709424000000 1709251200000 (by decide) (by decide) (by decide) (by decide)⟩

theorem take_append_take {α : Type} (n : ℕ) (l₁ l₂ : List α) :
    (l₁ ++ l₂.take n).take n = (l₁ ++ l₂).take n := by
  rw [List.take_append_eq_append_take, List.take_append_eq_append_take, List.take_take]
  congr 2
  omega

theorem addActivities_activity (H : Host) (calls : List (Tick × String)) (st : State) :
    (addActivities H calls st).activity =
      ((calls.map (activityEntry H)).reverse ++ st.activity).take 12 ∨
    calls = [] ∧ (addActivities H calls st).activity = st.activity := by
  induction calls generalizing st with
  | nil => exact Or.inr ⟨rfl, rfl⟩
  | cons c cs ih =>
    left
    have hstep : addActivities H (c :: cs) st =
        addActivities H cs (addActivity H c.1 c.2 st) := rfl
    rw [hstep]
    have hact : (addActivity H c.1 c.2 st).activity =
        (activityEntry H c :: st.activity).take 12 := rfl
    rcases ih (addActivity H c.1 c.2 st) with h | ⟨hnil, h⟩
    · rw [h, hact, take_append_take]
      simp
    · rw [h, hact, hnil]
      simp

/-- C4: starting from an empty activity log, after any sequence of `addActivity` calls the
log holds at most 12 entries, namely the last `min n 12` appended entries, newest first; in
particular after 13 appends it is the appends 13, 12, ..., 2 and the first one is gone. -/
theorem C4_activity_log_keeps_last_twelve
    (H : Host) (st : State) (calls : List (Tick × String)) :
    ((addActivities H calls { st with activity := [] }).activity).length ≤ 12 ∧
    ((addActivities H calls { st with activity := [] }).activity).length =
      min calls.length 12 ∧
    (addActivities H calls { st with activity := [] }).activity =
      ((calls.map (activityEntry H)).reverse).take 12 ∧
    ((addActivities H calls { st with activity := [] }).activity).map
      (fun event => event.message) = ((calls.map Prod.snd).reverse).take 12 ∧
    (calls.length = 13 →
      (addActivities H calls { st with activity := [] }).activity =
        ((calls.tail).map (activityEntry H)).reverse) := by
  have hlog : (addActivities H calls { st with activity := [] }).activity =
      ((calls.map (activityEntry H)).reverse).take 12 := by
    rcases addActivities_activity H calls { st with activity := [] } with h | ⟨hnil, h⟩
    · simpa using h
    · rw [h, hnil]
      rfl
  refine ⟨?_, ?_, hlog, ?_, ?_⟩
  · rw [hlog, List.length_take]
    exact Nat.min_le_left _ _
  · rw [hlog, List.length_take, List.length_reverse, List.length_map, Nat.min_comm]
  · rw [hlog, List.map_take, List.map_reverse, List.map_map]
    rfl
  · intro h13
    rw [hlog]
    match calls, h13 with
    | c :: rest, h13 =>
      have hrest : rest.length = 12 := by simpa using h13
      simp only [List.map_cons, List.reverse_cons, List.tail_cons]
      rw [List.take_append_of_le_length (by simp [hrest])]
      rw [List.take_of_length_le (by simp [hrest])]

/-- C4 at the thirteen appends `demoCalls`. -/
theorem C4_witness :
    demoCalls.length = 13 ∧
    (addActivities demoHost demoCalls { initialState with activity := [] }).activity =
      ((demoCalls.tail).map (activityEntry demoHost)).reverse :=
  ⟨by decide,
   (C4_activity_log_keeps_last_twelve demoHost initialState demoCalls).2.2.2.2 (by decide)⟩

/-- What a confirmed deletion does when the id occurs exactly once in the ledger: that
entry is removed, the others stay in their order, the length drops by 1. An unconfirmed
deletion leaves the whole state as it was. -/
theorem handleDeleteBooking_single (H : Host) (tick : Tick) (st : State)
    (before after : List Booking) (b : Booking)
    (hledger : st.bookings = before ++ b :: after)
    (hbefore : ∀ x ∈ before, x.id ≠ b.id) (hafter : ∀ x ∈ after, x.id ≠ b.id) :
    handleDeleteBooking H false tick b.id st = st ∧
    (handleDeleteBooking H true tick b.id st).bookings = before ++ after ∧
    (handleDeleteBooking H true tick b.id st).bookings.length + 1 = st.bookings.length ∧
    (handleDeleteBooking H true tick b.id st).activity =
      (activityEntry H (tick, "Booking " ++ b.id ++ " removed") :: st.activity).take 12 := by
  refine ⟨rfl, ?_, ?_, rfl⟩
  · show st.bookings.filter (fun item => item.id != b.id) = before ++ after
    rw [hledger, List.filter_append, List.filter_cons]
    have h1 : before.filter (fun item => item.id != b.id) = before := by
      rw [List.filter_eq_self]
      intro x hx
      simpa using hbefore x hx
    have h2 : after.filter (fun item => item.id != b.id) = after := by
      rw [List.filter_eq_self]
      intro x hx
      simpa using hafter x hx
    simp [h1, h2]
  · show (st.bookings.filter (fun item => item.id != b.id)).length + 1 = st.bookings.length
    rw [hledger, List.filter_append, List.filter_cons]
    have h1 : before.filter (fun item => item.id != b.id) = before := by
      rw [List.filter_eq_self]
      intro x hx
      simpa using hbefore x hx
    have h2 : after.filter (fun item => item.id != b.id) = after := by
      rw [List.filter_eq_self]
      intro x hx
      simpa using hafter x hx
    simp [h1, h2]
    omega

/-- C5 (the code at the failing input): the two bookings of `demoTwoBookings`, made 1000
seconds apart, carry the same id `BK-000000`; the confirmed deletion of that id removes
both, so the ledger shrinks from 2 entries to 0. -/
theorem C5_delete_removes_both_colliding_bookings :
    demoTwoBookings.bookings.map (fun item => item.id) = ["BK-000000", "BK-000000"] ∧
    demoTwoBookings.bookings.length = 2 ∧
    (handleDeleteBooking demoHost true demoTick "BK-000000" demoTwoBookings).bookings = [] ∧
    handleDeleteBooking demoHost false demoTick "BK-000000" demoTwoBookings =
      demoTwoBookings := by
  refine ⟨by decide, by decide, by decide, rfl⟩

/-- C6: under a session whose role is not `ADMIN` (or without a session), `createCar` fails
with `Only admin accounts can add cars.` whatever the car form holds, sends nothing and
leaves the state (the car list included) as it was; and the effect on the composer mode
turns an observed mode `car` into `booking`, changing nothing else. -/
theorem C6_non_admin_cannot_create_car
    (H : Host) (env : CarEnv) (st : State)
    (hrole : ∀ user, st.sessionUser = some user → user.role ≠ some (Json.str "ADMIN")) :
    isAdmin st = false ∧
    createCar H env st =
      { error := some "Only admin accounts can add cars.", sent := [], state := st } ∧
    (createCar H env st).state.cars = st.cars ∧
    composerModeEffect { st with composerType := "car" } =
      { st with composerType := "booking" } := by
  have hadmin : isAdmin st = false := by
    unfold isAdmin
    cases hu : st.sessionUser with
    | none => rfl
    | some user =>
      have hr := hrole user hu
      show strictEqStr user.role "ADMIN" = false
      match hrole2 : user.role with
      | some (Json.str t) =>
        have : t ≠ "ADMIN" := by
          intro ht
          apply hr
          rw [hrole2, ht]
        simpa [strictEqStr] using this
      | some Json.null => rfl
      | some (Json.bool _) => rfl
      | some (Json.num _) => rfl
      | some (Json.arr _) => rfl
      | some (Json.obj _) => rfl
      | none => rfl
  have hrun : createCar H env st =
      { error := some "Only admin accounts can add cars.", sent := [], state := st } := by
    simp [createCar, hadmin]
  refine ⟨hadmin, hrun, by rw [hrun], ?_⟩
  have hadmin2 : isAdmin { st with composerType := "car" } = false := hadmin
  simp [composerModeEffect, hadmin2]

/-- C6 at `demoState`, whose session has the role `CUSTOMER`. -/
theorem C6_witness :
    (∀ user, demoState.sessionUser = some user → user.role ≠ some (Json.str "ADMIN")) ∧
    isAdmin demoState = false ∧
    createCar demoHost demoComposerEnv.car demoState =
      { error := some "Only admin accounts can add cars.", sent := [], state := demoState } ∧
    (createCar demoHost demoComposerEnv.car demoState).state.cars = demoState.cars ∧
    composerModeEffect { demoState with composerType := "car" } =
      { demoState with composerType := "booking" } :=
  have hrole : ∀ user, demoState.sessionUser = some user →
      user.role ≠ some (Json.str "ADMIN") := by
    intro user hu
    have h : user = demoCustomer := (Option.some.inj hu).symm
    rw [h]
    intro hbad
    have hs : "CUSTOMER" = "ADMIN" := Json.str.inj (Option.some.inj hbad)
    exact absurd hs (by decide)
  ⟨hrole, C6_non_admin_cannot_create_car demoHost demoComposerEnv.car demoState hrole⟩

/-- The error that `request` throws for a non-2xx answer whose body parses to an object
with a non-empty string `message`. -/
theorem request_error_message (H : Host) (url : String) (r : Response) (parsed : Json)
    (m : String) (hstatus : ¬ (200 ≤ r.status ∧ r.status ≤ 299)) (hbody : r.body ≠ "")
    (hparse : H.jsonParse r.body = some parsed)
    (hmsg : parsed.get "message" = some (Json.str m)) (hm : m ≠ "") :
    request H url (some r) = Except.error m := by
  have hok : r.ok = false := by simp [Response.ok, hstatus]
  have htruthy : truthy (some (Json.str m)) = true := by simp [truthy, hm]
  simp [request, hok, hbody, hparse, hmsg, jsOr, htruthy, toStr]

/-- C7: when the gateway answers the car fetch with a non-2xx status and a body that is a
JSON object with a non-empty string `message` m, `syncAll` ends with the status banner
`{tone: 'error', text: m}`, puts one entry in front of the activity log, clears the
loading flag and leaves the car list as it was. -/
theorem C7_refresh_failure_shows_gateway_message
    (H : Host) (reason : String) (env : SyncEnv) (st : State) (r : Response)
    (parsed : Json) (m : String)
    (hresp : env.response = some r)
    (hstatus : ¬ (200 ≤ r.status ∧ r.status ≤ 299)) (hbody : r.body ≠ "")
    (hparse : H.jsonParse r.body = some parsed)
    (hmsg : parsed.get "message" = some (Json.str m)) (hm : m ≠ "") :
    (syncAll H reason env st).state.status = { tone := "error", text := m } ∧
    (syncAll H reason env st).state.activity =
      (activityEntry H (env.tick, "Data synchronization failed") :: st.activity).take 12 ∧
    (syncAll H reason env st).state.loading = false ∧
    (syncAll H reason env st).state.cars = st.cars ∧
    (syncAll H reason env st).error = none := by
  have hreq := request_error_message H (CARS_URL H) r parsed m hstatus hbody hparse hmsg hm
  have hfetch : fetchCars H env.response = Except.error m := by
    simp [fetchCars, hresp, hreq]
  simp [syncAll, hfetch, hm, addActivity, activityEntry]

/-- C7 at the answer `500` with body `{"message":"db down"}`. -/
theorem C7_witness :
    (demoSyncEnv.response = some demoFailResponse ∧
     ¬ (200 ≤ demoFailResponse.status ∧ demoFailResponse.status ≤ 299) ∧
     demoHost.jsonParse demoFailResponse.body =
       some (Json.obj [("message", Json.str "db down")]) ∧
     (Json.obj [("message", Json.str "db down")]).get "message" =
       some (Json.str "db down")) ∧
    (syncAll demoHost "Data refresh" demoSyncEnv demoState).state.status =
      { tone := "error", text := "db down" } ∧
    (syncAll demoHost "Data refresh" demoSyncEnv demoState).state.activity =
      (activityEntry demoHost (demoSyncEnv.tick, "Data synchronization failed") ::
        demoState.activity).take 12 ∧
    (syncAll demoHost "Data refresh" demoSyncEnv demoState).state.loading = false ∧
    (syncAll demoHost "Data refresh" demoSyncEnv demoState).state.cars = demoState.cars ∧
    (syncAll demoHost "Data refresh" demoSyncEnv demoState).error = none :=
  ⟨⟨rfl, by decide, rfl, rfl⟩,
   C7_refresh_failure_shows_gateway_message demoHost "Data refresh" demoSyncEnv demoState
     demoFailResponse
     (Json.obj [("message", Json.str "db down")]) "db down"
     rfl (by decide) (by decide) rfl rfl (by decide)⟩

/-- C8 (as stated, refuted): for the login answer `{"email":"a@b.com","role":"ADMIN"}` the
text of the status banner after `handleAuthSubmit` is `Welcome a@b.com.`, not
`Authentication successful.`. -/
theorem C8_counterexample :
    demoAuthEnv.response = some demoLoginResponse ∧
    demoHost.jsonParse demoLoginResponse.body =
      some (Json.obj [("email", Json.str "a@b.com"), ("role", Json.str "ADMIN")]) ∧
    (handleAuthSubmit demoHost demoAuthEnv initialState).state.status.text =
      "Welcome a@b.com." ∧
    (handleAuthSubmit demoHost demoAuthEnv initialState).state.status.text ≠
      "Authentication successful." := by
  refine ⟨rfl, rfl, by decide, by decide⟩

/-- C8 (amended): for a 2xx answer whose payload has a non-empty string `email`, the role
`ADMIN` and no `message` field, `handleAuthSubmit` sets the authentication message
(`authMessage`) to `Authentication successful.`, the status banner to the success
`Welcome <name or email>.`, and installs a session for which `isAdmin` is true. -/
theorem C8_login_admin_payload
    (H : Host) (env : AuthEnv) (st : State) (r : Response) (payload : Json) (email : String)
    (hresp : env.response = some r)
    (hstatus : 200 ≤ r.status ∧ r.status ≤ 299) (h204 : r.status ≠ 204)
    (hbody : r.body ≠ "")
    (hparse : H.jsonParse r.body = some payload)
    (hemail : payload.get "email" = some (Json.str email)) (hne : email ≠ "")
    (hrole : payload.get "role" = some (Json.str "ADMIN"))
    (hnomsg : payload.get "message" = none) :
    (handleAuthSubmit H env st).state.authMessage = "Authentication successful." ∧
    (handleAuthSubmit H env st).state.status =
      { tone := "success",
        text := "Welcome " ++ toStr H (jsOr (payload.get "name") (some (Json.str email))) ++
          "." } ∧
    isAdmin (handleAuthSubmit H env st).state = true ∧
    (handleAuthSubmit H env st).state.authError = "" := by
  have hok : r.ok = true := by simp [Response.ok, hstatus]
  have hreq : ∀ url, request H url (some r) = Except.ok payload := by
    intro url
    simp [request, hok, h204, hbody, hparse]
  have hpayload : truthy (some payload) = true := by
    cases payload with
    | obj fields => rfl
    | null => simp [Json.get] at hemail
    | bool b => simp [Json.get] at hemail
    | num n => simp [Json.get] at hemail
    | str t => simp [Json.get] at hemail
    | arr items => simp [Json.get] at hemail
  have hte : truthy (some (Json.str email)) = true := by simp [truthy, hne]
  have htr : truthy (some (Json.str "ADMIN")) = true := by simp [truthy]
  have hnone : truthy (none : Option Json) = false := rfl
  simp [handleAuthSubmit, hresp, hreq, hpayload, hemail, hrole, hnomsg, hte, htr, hnone,
    jsOr, toStr, isAdmin, strictEqStr, addActivity]

/-- C8 (amended) at the login answer `{"email":"a@b.com","role":"ADMIN"}`. -/
theorem C8_witness :
    (demoAuthEnv.response = some demoLoginResponse ∧
     demoHost.jsonParse demoLoginResponse.body =
       some (Json.obj [("email", Json.str "a@b.com"), ("role", Json.str "ADMIN")])) ∧
    (handleAuthSubmit demoHost demoAuthEnv initialState).state.authMessage =
      "Authentication successful." ∧
    (handleAuthSubmit demoHost demoAuthEnv initialState).state.status =
      { tone := "success",
        text := "Welcome " ++ toStr demoHost
          (jsOr ((Json.obj [("email", Json.str "a@b.com"), ("role", Json.str "ADMIN")]).get
            "name") (some (Json.str "a@b.com"))) ++ "." } ∧
    isAdmin (handleAuthSubmit demoHost demoAuthEnv initialState).state = true ∧
    (handleAuthSubmit demoHost demoAuthEnv initialState).state.authError = "" :=
  ⟨⟨rfl, rfl⟩,
   C8_login_admin_payload demoHost demoAuthEnv initialState
     demoLoginResponse
     (Json.obj [("email", Json.str "a@b.com"), ("role", Json.str "ADMIN")]) "a@b.com"
     rfl (by decide) (by decide) (by decide) rfl rfl (by decide) rfl rfl⟩

/-- C9 (the code at the failing input): two bookings created in one session at the
distinct instants 1700000000000 and 1700001000000 (1000 seconds apart) both get the id
`BK-000000`, so the ledger `demoTwoBookings` built by `createBooking` repeats an id. -/
theorem C9_booking_ids_collide :
    demoBookingEnv.now ≠ demoLaterEnv.now ∧
    (createBooking demoHost demoBookingEnv demoState).error = none ∧
    (createBooking demoHost demoBookingEnv demoState).state.bookings.map
      (fun item => item.id) = ["BK-000000"] ∧
    (createBooking demoHost demoLaterEnv demoState).error = none ∧
    (createBooking demoHost demoLaterEnv demoState).state.bookings.map
      (fun item => item.id) = ["BK-000000"] ∧
    ¬ (demoTwoBookings.bookings.map (fun item => item.id)).Nodup := by
  refine ⟨by decide, by decide, by decide, by decide, by decide, by decide⟩

/-- Stability of the sort: elements that the comparator ranks as mutually equal-or-before
keep their input order. -/
theorem arraySort_filter_stable {α : Type} (cmp : α → α → ℚ) (p : α → Bool)
    (hp : ∀ a b, p a = true → p b = true → cmp a b ≤ 0) (l : List α) :
    (arraySort cmp l).filter p = l.filter p := by
  have hins : ∀ (a : α) (l : List α),
      (insertSorted cmp a l).filter p = (a :: l).filter p := by
    intro a l
    induction l with
    | nil => rfl
    | cons b l ih =>
      by_cases hab : cmp a b ≤ 0
      · simp [insertSorted, hab]
      · have hstep : insertSorted cmp a (b :: l) = b :: insertSorted cmp a l := by
          simp [insertSorted, hab]
        rw [hstep, List.filter_cons, ih]
        cases hpa : p a
        · simp [List.filter_cons, hpa]
        · have hpb : p b = false := by
            cases hpb : p b
            · rfl
            · exact absurd (hp a b hpa hpb) hab
          simp [List.filter_cons, hpa, hpb]
  induction l with
  | nil => rfl
  | cons a l ih =>
    show (insertSorted cmp a (arraySort cmp l)).filter p = _
    rw [hins, List.filter_cons, List.filter_cons, ih]

theorem bookingCompare_le_iff (H : Host) (a b : Booking) :
    bookingCompare H a b ≤ 0 ↔
      bookingDate H b.startDate = none ∨
      ∃ l r, bookingDate H a.startDate = some l ∧ bookingDate H b.startDate = some r ∧
        l ≤ r := by
  unfold bookingCompare
  cases ha : bookingDate H a.startDate <;> cases hb : bookingDate H b.startDate <;> simp

theorem bookingCompare_total (H : Host) (a b : Booking) :
    bookingCompare H a b ≤ 0 ∨ bookingCompare H b a ≤ 0 := by
  rw [bookingCompare_le_iff, bookingCompare_le_iff]
  cases ha : bookingDate H a.startDate <;> cases hb : bookingDate H b.startDate <;>
    simp [le_total]

theorem bookingCompare_trans (H : Host) (a b c : Booking)
    (hab : bookingCompare H a b ≤ 0) (hbc : bookingCompare H b c ≤ 0) :
    bookingCompare H a c ≤ 0 := by
  rw [bookingCompare_le_iff] at *
  cases ha : bookingDate H a.startDate <;> cases hb : bookingDate H b.startDate <;>
    cases hc : bookingDate H c.startDate <;> simp_all
  exact le_trans hab hbc

/-- C10: `filteredBookings` returns a permutation of the bookings that pass the filter; the
start dates that parse appear in non-decreasing order; no booking with an unparsable or
missing start date precedes one whose start date parses; and the bookings with an
unparsable or missing start date keep the order they had in the input. -/
theorem C10_filteredBookings_sorted_by_start_date
    (H : Host) (enriched : List Booking) (queryBookings : String) :
    (filteredBookings H enriched queryBookings).Perm
      (enriched.filter (bookingMatches H (normalize H queryBookings))) ∧
    ((filteredBookings H enriched queryBookings).filterMap
      (fun item => bookingDate H item.startDate)).Pairwise (fun l r => l ≤ r) ∧
    (filteredBookings H enriched queryBookings).Pairwise
      (fun a b => ¬ (bookingDate H a.startDate = none ∧ bookingDate H b.startDate ≠ none)) ∧
    (filteredBookings H enriched queryBookings).filter
        (fun item => (bookingDate H item.startDate).isNone) =
      (enriched.filter (bookingMatches H (normalize H queryBookings))).filter
        (fun item => (bookingDate H item.startDate).isNone) := by
  have hsorted : (filteredBookings H enriched queryBookings).Pairwise
      (fun a b => bookingCompare H a b ≤ 0) :=
    arraySort_pairwise _ (bookingCompare_total H) (bookingCompare_trans H) _
  refine ⟨arraySort_perm _ _, ?_, ?_, ?_⟩
  · rw [List.pairwise_filterMap]
    refine hsorted.imp ?_
    intro a b hab l hl r hr
    rw [bookingCompare_le_iff] at hab
    rw [Option.mem_def] at hl hr
    rcases hab with hnone | ⟨l2, r2, hl2, hr2, hle⟩
    · rw [hnone] at hr
      exact Option.noConfusion hr
    · rw [hl2] at hl
      rw [hr2] at hr
      rw [← Option.some.inj hl, ← Option.some.inj hr]
      exact hle
  · refine hsorted.imp ?_
    intro a b hab
    rw [bookingCompare_le_iff] at hab
    rintro ⟨ha, hb⟩
    rcases hab with hnone | ⟨l2, r2, hl2, _, _⟩
    · exact hb hnone
    · rw [ha] at hl2
      exact Option.noConfusion hl2
  · refine arraySort_filter_stable _ _ ?_ _
    intro a b ha hb
    rw [bookingCompare_le_iff]
    left
    simpa using hb

/-- The test of `nextPickup` and the lower half of the test of `bookingsNext24h`. -/
theorem startsAtOrAfter_iff (H : Host) (now : ℤ) (item : Booking) :
    (match bookingDate H item.startDate with
      | some start => decide (start ≥ now)
      | none => false) = true ↔
    ∃ s, bookingDate H item.startDate = some s ∧ now ≤ s := by
  cases h : bookingDate H item.startDate <;> simp

/-- The test of `bookingsNext24h`. -/
theorem startsWithinDay_iff (H : Host) (now : ℤ) (item : Booking) :
    (match bookingDate H item.startDate with
      | some start => decide (start ≥ now) && decide (start ≤ now + 24 * 60 * 60 * 1000)
      | none => false) = true ↔
    ∃ s, bookingDate H item.startDate = some s ∧ now ≤ s ∧ s ≤ now + 86400000 := by
  cases h : bookingDate H item.startDate <;> simp

/-- In a list sorted by `bookingCompare`, the booking found by `nextPickup` starts no later
than any other listed booking that starts at or after `now`. -/
theorem nextPickup_earliest (H : Host) (now : ℤ) (l : List Booking)
    (hsorted : l.Pairwise (fun a b => bookingCompare H a b ≤ 0)) (b : Booking)
    (hfound : nextPickup H l now = some b) :
    b ∈ l ∧ ∃ s, bookingDate H b.startDate = some s ∧ now ≤ s ∧
      ∀ other ∈ l, ∀ t, bookingDate H other.startDate = some t → now ≤ t → s ≤ t := by
  induction l with
  | nil => simp [nextPickup] at hfound
  | cons a rest ih =>
    rw [List.pairwise_cons] at hsorted
    unfold nextPickup at hfound
    rw [List.find?_cons_eq_some] at hfound
    rcases hfound with ⟨hpa, hab⟩ | ⟨hpa, hrest⟩
    · subst hab
      obtain ⟨s, hs, hle⟩ := (startsAtOrAfter_iff H now a).mp hpa
      refine ⟨List.mem_cons_self _ _, s, hs, hle, ?_⟩
      intro other hother t ht _
      rcases List.mem_cons.mp hother with heq | hmem
      · rw [heq, hs] at ht
        exact le_of_eq (Option.some.inj ht)
      · have hcmp := hsorted.1 other hmem
        rw [bookingCompare_le_iff] at hcmp
        rcases hcmp with hnone | ⟨l2, r2, hl2, hr2, hle2⟩
        · rw [hnone] at ht
          exact Option.noConfusion ht
        · rw [hs] at hl2
          rw [ht] at hr2
          rw [Option.some.inj hl2, Option.some.inj hr2]
          exact hle2
    · obtain ⟨hmem, s, hs, hle, hmin⟩ := ih hsorted.2 hrest
      refine ⟨List.mem_cons_of_mem _ hmem, s, hs, hle, ?_⟩
      intro other hother t ht hnow
      rcases List.mem_cons.mp hother with heq | hmem2
      · exfalso
        have hpa2 : (match bookingDate H a.startDate with
            | some start => decide (start ≥ now)
            | none => false) = true := by
          rw [startsAtOrAfter_iff]
          exact ⟨t, heq ▸ ht, hnow⟩
        rw [hpa2] at hpa
        exact Bool.noConfusion hpa
      · exact hmin other hmem2 t ht hnow

theorem nextPickup_eq_none_iff (H : Host) (now : ℤ) (l : List Booking) :
    nextPickup H l now = none ↔
      ∀ item ∈ l, ∀ s, bookingDate H item.startDate = some s → s < now := by
  unfold nextPickup
  rw [List.find?_eq_none]
  constructor
  · intro h item hitem s hs
    by_contra hlt
    exact h item hitem ((startsAtOrAfter_iff H now item).mpr ⟨s, hs, not_lt.mp hlt⟩)
  · intro h item hitem hp
    obtain ⟨s, hs, hle⟩ := (startsAtOrAfter_iff H now item).mp hp
    exact absurd (h item hitem s hs) (not_lt.mpr hle)

theorem filteredBookings_sorted (H : Host) (enriched : List Booking) (queryBookings : String) :
    (filteredBookings H enriched queryBookings).Pairwise
      (fun a b => bookingCompare H a b ≤ 0) :=
  arraySort_pairwise _ (bookingCompare_total H) (bookingCompare_trans H) _

/-- C11: over the list returned by `filteredBookings`, `nextPickup` is absent exactly when
no listed booking has a start date that parses to an instant at or after `now`; otherwise
it is a listed booking whose start date is at or after `now` and no later than the start
date of any other listed booking at or after `now`, and it is the first such booking of
the sorted list. -/
theorem C11_nextPickup_is_earliest_upcoming
    (H : Host) (enriched : List Booking) (queryBookings : String) (now : ℤ) :
    (nextPickup H (filteredBookings H enriched queryBookings) now = none ↔
      ∀ item ∈ filteredBookings H enriched queryBookings,
        ∀ s, bookingDate H item.startDate = some s → s < now) ∧
    (∀ b, nextPickup H (filteredBookings H enriched queryBookings) now = some b →
      b ∈ filteredBookings H enriched queryBookings ∧
      ∃ s, bookingDate H b.startDate = some s ∧ now ≤ s ∧
        (∀ other ∈ filteredBookings H enriched queryBookings,
          ∀ t, bookingDate H other.startDate = some t → now ≤ t → s ≤ t) ∧
        ∃ earlier later, filteredBookings H enriched queryBookings = earlier ++ b :: later ∧
          ∀ item ∈ earlier, ∀ t, bookingDate H item.startDate = some t → t < now) := by
  refine ⟨nextPickup_eq_none_iff H now _, ?_⟩
  intro b hb
  obtain ⟨hmem, s, hs, hle, hmin⟩ :=
    nextPickup_earliest H now _ (filteredBookings_sorted H enriched queryBookings) b hb
  refine ⟨hmem, s, hs, hle, hmin, ?_⟩
  unfold nextPickup at hb
  rw [List.find?_eq_some] at hb
  obtain ⟨_, earlier, later, hsplit, hnot⟩ := hb
  refine ⟨earlier, later, hsplit, ?_⟩
  intro item hitem t ht
  by_contra hlt
  have hp := (startsAtOrAfter_iff H now item).mpr ⟨t, ht, not_lt.mp hlt⟩
  have hn := hnot item hitem
  rw [hp] at hn
  exact Bool.noConfusion hn

/-- Each listed booking adds 1 to `bookingsNext24h` when it passes the test of the window
and nothing otherwise, wherever it stands in the list. -/
theorem bookingsNext24h_insert (H : Host) (now : ℤ) (before after : List Booking)
    (item : Booking) :
    bookingsNext24h H (before ++ item :: after) now =
      bookingsNext24h H (before ++ after) now +
        (if ∃ s, bookingDate H item.startDate = some s ∧ now ≤ s ∧ s ≤ now + 86400000
          then 1 else 0) := by
  have htest := startsWithinDay_iff H now item
  simp only [bookingsNext24h, List.filter_append, List.filter_cons, List.length_append]
  by_cases hin : ∃ s, bookingDate H item.startDate = some s ∧ now ≤ s ∧ s ≤ now + 86400000
  · rw [if_pos (htest.mpr hin), if_pos hin, List.length_cons]
    omega
  · have hfalse : ¬ ((match bookingDate H item.startDate with
        | some start => decide (start ≥ now) && decide (start ≤ now + 24 * 60 * 60 * 1000)
        | none => false) = true) := fun h => hin (htest.mp h)
    rw [if_neg hfalse, if_neg hin]
    omega

/-- C12: a listed booking whose start date parses to `s` is counted by `bookingsNext24h`
exactly when `now ≤ s ≤ now + 24h`: a start at `now` and a start at `now + 24h` count, a
start at `now + 24h + 1ms` or at `now - 1ms` does not, and a booking whose start date does
not parse never counts. -/
theorem C12_bookingsNext24h_window_is_inclusive
    (H : Host) (now : ℤ) (before after : List Booking) (item : Booking) :
    (∀ s, bookingDate H item.startDate = some s →
      (bookingsNext24h H (before ++ item :: after) now =
          bookingsNext24h H (before ++ after) now + 1 ↔ now ≤ s ∧ s ≤ now + 86400000) ∧
      (bookingsNext24h H (before ++ item :: after) now =
          bookingsNext24h H (before ++ after) now ↔ ¬ (now ≤ s ∧ s ≤ now + 86400000))) ∧
    (bookingDate H item.startDate = some now →
      bookingsNext24h H (before ++ item :: after) now =
        bookingsNext24h H (before ++ after) now + 1) ∧
    (bookingDate H item.startDate = some (now + 86400000) →
      bookingsNext24h H (before ++ item :: after) now =
        bookingsNext24h H (before ++ after) now + 1) ∧
    (bookingDate H item.startDate = some (now + 86400000 + 1) →
      bookingsNext24h H (before ++ item :: after) now =
        bookingsNext24h H (before ++ after) now) ∧
    (bookingDate H item.startDate = some (now - 1) →
      bookingsNext24h H (before ++ item :: after) now =
        bookingsNext24h H (before ++ after) now) ∧
    (bookingDate H item.startDate = none →
      bookingsNext24h H (before ++ item :: after) now =
        bookingsNext24h H (before ++ after) now) := by
  have hins := bookingsNext24h_insert H now before after item
  have hwin : ∀ s, bookingDate H item.startDate = some s →
      ((∃ t, bookingDate H item.startDate = some t ∧ now ≤ t ∧ t ≤ now + 86400000) ↔
        now ≤ s ∧ s ≤ now + 86400000) := by
    intro s hs
    constructor
    · rintro ⟨t, ht, h1, h2⟩
      rw [hs] at ht
      rw [Option.some.inj ht]
      exact ⟨h1, h2⟩
    · intro h
      exact ⟨s, hs, h⟩
  refine ⟨?_, ?_, ?_, ?_, ?_, ?_⟩
  · intro s hs
    by_cases hin : now ≤ s ∧ s ≤ now + 86400000
    · rw [hins, if_pos ((hwin s hs).mpr hin)]
      exact ⟨⟨fun _ => hin, fun _ => rfl⟩, ⟨fun h => by omega, fun h => absurd hin h⟩⟩
    · rw [hins, if_neg (fun h => hin ((hwin s hs).mp h))]
      exact ⟨⟨fun h => by omega, fun h => absurd h hin⟩, ⟨fun _ => hin, fun _ => rfl⟩⟩
  · intro hs
    rw [hins, if_pos ((hwin now hs).mpr ⟨le_refl _, by omega⟩)]
  · intro hs
    rw [hins, if_pos ((hwin _ hs).mpr ⟨by omega, le_refl _⟩)]
  · intro hs
    rw [hins, if_neg (fun h => by have := (hwin _ hs).mp h; omega)]
    rfl
  · intro hs
    rw [hins, if_neg (fun h => by have := (hwin _ hs).mp h; omega)]
    rfl
  · intro hs
    rw [hins, if_neg (by rintro ⟨t, ht, _⟩; rw [hs] at ht; exact Option.noConfusion ht)]
    rfl

theorem label_ne_empty (make model : String) : make ++ " " ++ model ≠ "" := by
  intro h
  have hlen := congrArg String.length h
  simp only [String.length_append] at hlen
  have h1 : " ".length = 1 := rfl
  have h0 : "".length = 0 := rfl
  omega

/-- C13: `enrichedBookings` keeps the bookings in place and changes only `carLabel`: it is
`<make> <model>` of the first car of the list whose id equals the booking's `carId` as
strings; with no such car it is the booking's cached label when that is non-empty and
`Car #<carId>` otherwise. So a booking that carries the label snapshotted from a car keeps
that label once no car of the fleet has its `carId`. -/
theorem C13_enrichedBookings_label_resolution (bookings : List Booking) (cars : List Car) :
    List.Forall₂
      (fun b e =>
        e = { b with carLabel := e.carLabel } ∧
        (∀ front c back, cars = front ++ c :: back → c.id = b.carId →
          (∀ x ∈ front, x.id ≠ b.carId) → e.carLabel = c.make ++ " " ++ c.model) ∧
        ((∀ x ∈ cars, x.id ≠ b.carId) → b.carLabel ≠ "" → e.carLabel = b.carLabel) ∧
        ((∀ x ∈ cars, x.id ≠ b.carId) → b.carLabel = "" →
          e.carLabel = "Car #" ++ b.carId) ∧
        (∀ c : Car, b.carLabel = c.make ++ " " ++ c.model →
          (∀ x ∈ cars, x.id ≠ b.carId) → e.carLabel = c.make ++ " " ++ c.model))
      bookings (enrichedBookings bookings cars) := by
  unfold enrichedBookings
  rw [List.forall₂_map_right_iff]
  apply List.forall₂_same.mpr
  intro b _
  have hnone : (∀ x ∈ cars, x.id ≠ b.carId) →
      cars.find? (fun car => car.id == b.carId) = none := by
    intro h
    rw [List.find?_eq_none]
    intro x hx
    simpa using h x hx
  refine ⟨rfl, ?_, ?_, ?_, ?_⟩
  · intro front c back hsplit hid hfront
    have hfind : cars.find? (fun car => car.id == b.carId) = some c := by
      rw [List.find?_eq_some]
      refine ⟨by simpa using hid, front, back, hsplit, ?_⟩
      intro x hx
      simpa using hfront x hx
    simp [hfind]
  · intro h hlabel
    simp [hnone h, hlabel]
  · intro h hlabel
    simp [hnone h, hlabel]
  · intro c hlabel h
    simp [hnone h, hlabel, label_ne_empty]

/-- C14: with `n = normalize`, a car is in the view of `filteredCars` exactly when it is in
the car list and either `n(q)` is empty or `n(q)` is a substring of `n(id)`, `n(make)`,
`n(model)` or `n(pricePerDay)`; so every car passes an empty query, and queries or cars
that differ only in what lower-casing removes are treated alike. -/
theorem C14_car_filter_is_normalized_substring_match
    (H : Host) (cars : List Car) (queryCars sortBy : String) :
    (∀ car, car ∈ filteredCars H cars queryCars sortBy ↔
      car ∈ cars ∧
        (normalize H queryCars = "" ∨
          (normalize H queryCars).data <:+: (normalize H car.id).data ∨
          (normalize H queryCars).data <:+: (normalize H car.make).data ∨
          (normalize H queryCars).data <:+: (normalize H car.model).data ∨
          (normalize H queryCars).data <:+:
            (normalize H (H.numberToString car.pricePerDay)).data)) ∧
    (normalize H queryCars = "" → ∀ car, car ∈ filteredCars H cars queryCars sortBy ↔
      car ∈ cars) ∧
    (∀ other, H.toLowerCase other = H.toLowerCase queryCars →
      filteredCars H cars other sortBy = filteredCars H cars queryCars sortBy) ∧
    (∀ a b : Car, H.toLowerCase a.id = H.toLowerCase b.id →
      H.toLowerCase a.make = H.toLowerCase b.make →
      H.toLowerCase a.model = H.toLowerCase b.model →
      H.toLowerCase (H.numberToString a.pricePerDay) =
        H.toLowerCase (H.numberToString b.pricePerDay) →
      (a ∈ filteredCars H [a] queryCars sortBy ↔ b ∈ filteredCars H [b] queryCars sortBy)) := by
  have hmem : ∀ (cars : List Car) (car : Car), car ∈ filteredCars H cars queryCars sortBy ↔
      car ∈ cars ∧
        (normalize H queryCars = "" ∨
          (normalize H queryCars).data <:+: (normalize H car.id).data ∨
          (normalize H queryCars).data <:+: (normalize H car.make).data ∨
          (normalize H queryCars).data <:+: (normalize H car.model).data ∨
          (normalize H queryCars).data <:+:
            (normalize H (H.numberToString car.pricePerDay)).data) := by
    intro cars car
    rw [(filteredCars_perm H cars queryCars sortBy).mem_iff, List.mem_filter]
    by_cases hq : normalize H queryCars = ""
    · simp [carMatches, hq]
    · simp [carMatches, hq, includes, or_assoc]
  refine ⟨hmem cars, ?_, ?_, ?_⟩
  · intro hq car
    rw [hmem cars car]
    constructor
    · exact fun h => h.1
    · exact fun h => ⟨h, Or.inl hq⟩
  · intro other hother
    have hn : normalize H other = normalize H queryCars := by
      unfold normalize
      rw [hother]
    simp only [filteredCars, hn]
  · intro a b hid hmake hmodel hprice
    have h1 : normalize H a.id = normalize H b.id := by unfold normalize; rw [hid]
    have h2 : normalize H a.make = normalize H b.make := by unfold normalize; rw [hmake]
    have h3 : normalize H a.model = normalize H b.model := by unfold normalize; rw [hmodel]
    have h4 : normalize H (H.numberToString a.pricePerDay) =
        normalize H (H.numberToString b.pricePerDay) := by unfold normalize; rw [hprice]
    rw [hmem [a] a, hmem [b] b, h1, h2, h3, h4]
    simp

theorem isAdmin_of_role (st : State) (user : SessionUser)
    (hsession : st.sessionUser = some user) (hrole : user.role = some (Json.str "ADMIN")) :
    isAdmin st = true := by
  simp [isAdmin, hsession, hrole, strictEqStr]

/-- C15: under an `ADMIN` session `createCar` posts to the gateway exactly when make and
model are non-empty after trimming and the price converts to a finite number above 0 (the
post carries the trimmed make and model, that number and the availability flag); with an
empty make or model it fails with `Make and model are required.`, otherwise with a price
that is not a finite number above 0 it fails with `Price per day must be a positive
number.`, and in both failures it sends nothing and leaves the whole state (car form and
car list included) as it was. -/
theorem C15_createCar_posts_iff_form_is_valid
    (H : Host) (env : CarEnv) (st : State) (user : SessionUser)
    (hsession : st.sessionUser = some user) (hrole : user.role = some (Json.str "ADMIN")) :
    ((∃ post rest, (createCar H env st).sent = post :: rest ∧
        post.url = CREATE_CAR_URL H ∧ post.method = "POST") ↔
      (H.trim st.carForm.make ≠ "" ∧ H.trim st.carForm.model ≠ "" ∧
        ∃ price, H.toNumber st.carForm.pricePerDay = some price ∧ 0 < price)) ∧
    (∀ price, H.trim st.carForm.make ≠ "" → H.trim st.carForm.model ≠ "" →
      H.toNumber st.carForm.pricePerDay = some price → 0 < price →
      ∃ rest, (createCar H env st).sent =
        { url := CREATE_CAR_URL H, method := "POST",
          body := some (Json.obj [("make", Json.str (H.trim st.carForm.make)),
            ("model", Json.str (H.trim st.carForm.model)),
            ("pricePerDay", Json.num price),
            ("available", Json.bool st.carForm.available)]) } :: rest) ∧
    ((H.trim st.carForm.make = "" ∨ H.trim st.carForm.model = "") →
      createCar H env st =
        { error := some "Make and model are required.", sent := [], state := st }) ∧
    (H.trim st.carForm.make ≠ "" → H.trim st.carForm.model ≠ "" →
      (∀ price, H.toNumber st.carForm.pricePerDay = some price → price ≤ 0) →
      createCar H env st =
        { error := some "Price per day must be a positive number.", sent := [],
          state := st }) := by
  have hadmin := isAdmin_of_role st user hsession hrole
  have hnames : (H.trim st.carForm.make = "" ∨ H.trim st.carForm.model = "") →
      createCar H env st =
        { error := some "Make and model are required.", sent := [], state := st } := by
    intro h
    simp [createCar, hadmin, h]
  have hprice : H.trim st.carForm.make ≠ "" → H.trim st.carForm.model ≠ "" →
      (∀ price, H.toNumber st.carForm.pricePerDay = some price → price ≤ 0) →
      createCar H env st =
        { error := some "Price per day must be a positive number.", sent := [],
          state := st } := by
    intro h1 h2 h3
    cases hp : H.toNumber st.carForm.pricePerDay with
    | none => simp [createCar, hadmin, h1, h2, hp]
    | some price => simp [createCar, hadmin, h1, h2, hp, h3 price hp]
  have hpost : ∀ price, H.trim st.carForm.make ≠ "" → H.trim st.carForm.model ≠ "" →
      H.toNumber st.carForm.pricePerDay = some price → 0 < price →
      ∃ rest, (createCar H env st).sent =
        { url := CREATE_CAR_URL H, method := "POST",
          body := some (Json.obj [("make", Json.str (H.trim st.carForm.make)),
            ("model", Json.str (H.trim st.carForm.model)),
            ("pricePerDay", Json.num price),
            ("available", Json.bool st.carForm.available)]) } :: rest := by
    intro price h1 h2 hp hpos
    have hnot : ¬ price ≤ 0 := not_le.mpr hpos
    cases hreq : request H (CREATE_CAR_URL H) env.response with
    | error message => exact ⟨[], by simp [createCar, hadmin, h1, h2, hp, hnot, hreq]⟩
    | ok created => exact ⟨_, by simp [createCar, hadmin, h1, h2, hp, hnot, hreq]; rfl⟩
  refine ⟨⟨?_, ?_⟩, hpost, hnames, hprice⟩
  · rintro ⟨post, rest, hsent, _, _⟩
    by_contra hbad
    by_cases hn : H.trim st.carForm.make = "" ∨ H.trim st.carForm.model = ""
    · rw [hnames hn] at hsent
      exact List.noConfusion hsent
    · have h1 : H.trim st.carForm.make ≠ "" := fun h => hn (Or.inl h)
      have h2 : H.trim st.carForm.model ≠ "" := fun h => hn (Or.inr h)
      have h3 : ∀ price, H.toNumber st.carForm.pricePerDay = some price → price ≤ 0 := by
        intro price hp
        by_contra hpos
        exact hbad ⟨h1, h2, price, hp, not_le.mp hpos⟩
      rw [hprice h1 h2 h3] at hsent
      exact List.noConfusion hsent
  · rintro ⟨h1, h2, price, hp, hpos⟩
    obtain ⟨rest, hsent⟩ := hpost price h1 h2 hp hpos
    exact ⟨_, rest, hsent, rfl, rfl⟩

/-- C15 at `demoAdminState`: an admin submits Honda Civic at 45 a day. -/
theorem C15_witness :
    (demoAdminState.sessionUser = some demoAdmin ∧
     demoAdmin.role = some (Json.str "ADMIN")) ∧
    ((∃ post rest, (createCar demoHost demoCarEnv demoAdminState).sent = post :: rest ∧
        post.url = CREATE_CAR_URL demoHost ∧ post.method = "POST") ↔
      (demoHost.trim demoAdminState.carForm.make ≠ "" ∧
        demoHost.trim demoAdminState.carForm.model ≠ "" ∧
        ∃ price, demoHost.toNumber demoAdminState.carForm.pricePerDay = some price ∧
          0 < price)) :=
  ⟨⟨rfl, rfl⟩,
   (C15_createCar_posts_iff_form_is_valid demoHost demoCarEnv demoAdminState demoAdmin
     rfl rfl).1⟩

/-- The `||` chain of `request` picks the first truthy of the four fields and the empty
string when there is none. -/
theorem message_chain_eq (parsed : Json) :
    jsOr (parsed.get "message") (jsOr (parsed.get "error")
      (jsOr (parsed.get "detail") (jsOr (parsed.get "title") (some (Json.str ""))))) =
    match firstTruthyField parsed with
    | some v => some v
    | none => some (Json.str "") := by
  simp only [firstTruthyField, List.findSome?, jsOr]
  cases h1 : truthy (parsed.get "message") <;> cases h2 : truthy (parsed.get "error") <;>
    cases h3 : truthy (parsed.get "detail") <;> cases h4 : truthy (parsed.get "title") <;>
    simp [h1, h2, h3, h4] <;>
    (first
      | (cases hv : parsed.get "message" <;> simp_all [truthy] <;> done)
      | (cases hv : parsed.get "error" <;> simp_all [truthy] <;> done)
      | (cases hv : parsed.get "detail" <;> simp_all [truthy] <;> done)
      | (cases hv : parsed.get "title" <;> simp_all [truthy]))

theorem fallbackMessage_ne_empty (url : String) (status : ℕ) :
    fallbackMessage url status ≠ "" := by
  unfold fallbackMessage
  split_ifs
  · decide
  · intro h
    have hlen := congrArg String.length h
    simp only [String.length_append] at hlen
    have h1 : "Request failed (".length = 16 := rfl
    have h0 : "".length = 0 := rfl
    omega

/-- What `request` throws for a non-2xx answer, by the content of the body. -/
theorem request_non2xx (H : Host) (url : String) (r : Response)
    (hstatus : ¬ (200 ≤ r.status ∧ r.status ≤ 299)) :
    request H url (some r) = Except.error
      (match (if r.body ≠ "" then (H.jsonParse r.body).bind firstTruthyField else none) with
        | some v => toStr H (some v)
        | none => fallbackMessage url r.status) := by
  have hok : r.ok = false := by simp [Response.ok, hstatus]
  have htruthy : ∀ parsed v, firstTruthyField parsed = some v → truthy (some v) = true := by
    intro parsed v hv
    obtain ⟨key, _, hkey⟩ := List.exists_of_findSome?_eq_some hv
    split_ifs at hkey with ht
    rw [← hkey]
    exact ht
  by_cases hbody : r.body = ""
  · simp [request, hok, hbody, truthy, fallbackMessage, toStr]
    split_ifs <;> rfl
  · cases hparse : H.jsonParse r.body with
    | none =>
      simp [request, hok, hbody, hparse, truthy, fallbackMessage, toStr]
      split_ifs <;> rfl
    | some parsed =>
      cases hfirst : firstTruthyField parsed with
      | none =>
        simp [request, hok, hbody, hparse, message_chain_eq, hfirst, truthy, fallbackMessage,
          toStr]
        split_ifs <;> rfl
      | some v =>
        have hv := htruthy parsed v hfirst
        simp [request, hok, hbody, hparse, message_chain_eq, hfirst, hv]

/-- The value `firstTruthyField` picks, field by field. -/
theorem firstTruthyField_eq (parsed : Json) :
    firstTruthyField parsed =
      if truthy (parsed.get "message") then parsed.get "message"
      else if truthy (parsed.get "error") then parsed.get "error"
      else if truthy (parsed.get "detail") then parsed.get "detail"
      else if truthy (parsed.get "title") then parsed.get "title"
      else none := by
  simp only [firstTruthyField, List.findSome?]
  generalize parsed.get "message" = o1
  generalize parsed.get "error" = o2
  generalize parsed.get "detail" = o3
  generalize parsed.get "title" = o4
  have hnone : truthy none = false := rfl
  cases o1 <;> cases o2 <;> cases o3 <;> cases o4 <;> (try simp only [hnone]) <;>
    split_ifs <;> simp_all

/-- C16 (as stated, refuted): for the answer `400` with body
`{"message":"","error":"boom"}` the first present field is `message`, with the empty
value, but `request` fails with the message `boom` of the field `error`. -/
theorem C16_counterexample :
    ¬ (200 ≤ demoBadRequest.status ∧ demoBadRequest.status ≤ 299) ∧
    demoHost.jsonParse demoBadRequest.body =
      some (Json.obj [("message", Json.str ""), ("error", Json.str "boom")]) ∧
    (Json.obj [("message", Json.str ""), ("error", Json.str "boom")]).get "message" =
      some (Json.str "") ∧
    request demoHost (CARS_URL demoHost) (some demoBadRequest) = Except.error "boom" := by
  refine ⟨by decide, rfl, rfl, ?_⟩
  rw [request_non2xx demoHost _ demoBadRequest (by decide)]
  rfl

/-- C16 (amended): for every non-2xx answer `request` fails, and its message is the string
form of the first truthy (for a string: non-empty) of the fields `message`, `error`,
`detail`, `title` of the JSON body, in that order; when none of them is truthy, or the
body is empty or not JSON, it is the backend-unavailable text if the status is 500 and the
URL contains `/api/`, and `Request failed (<status>)` otherwise. The message is not empty
when the chosen value is a string or when no field is chosen. -/
theorem C16_request_error_is_first_truthy_field
    (H : Host) (url : String) (r : Response)
    (hstatus : ¬ (200 ≤ r.status ∧ r.status ≤ 299)) :
    (∃ m, request H url (some r) = Except.error m) ∧
    (∀ parsed v, r.body ≠ "" → H.jsonParse r.body = some parsed →
      firstTruthyField parsed = some v →
      request H url (some r) = Except.error (toStr H (some v))) ∧
    (∀ parsed s, r.body ≠ "" → H.jsonParse r.body = some parsed →
      firstTruthyField parsed = some (Json.str s) →
      request H url (some r) = Except.error s ∧ s ≠ "") ∧
    ((r.body = "" ∨ H.jsonParse r.body = none ∨
        ∃ parsed, H.jsonParse r.body = some parsed ∧ firstTruthyField parsed = none) →
      request H url (some r) = Except.error (fallbackMessage url r.status)) ∧
    fallbackMessage url r.status =
      (if r.status = 500 ∧ "/api/".data <:+: url.data then
        "Backend API is unavailable. Start Spring Boot on port 8081."
       else "Request failed (" ++ natToString r.status ++ ")") ∧
    fallbackMessage url r.status ≠ "" ∧
    (∀ parsed, firstTruthyField parsed =
      if truthy (parsed.get "message") then parsed.get "message"
      else if truthy (parsed.get "error") then parsed.get "error"
      else if truthy (parsed.get "detail") then parsed.get "detail"
      else if truthy (parsed.get "title") then parsed.get "title"
      else none) := by
  have hreq := request_non2xx H url r hstatus
  have hchosen : ∀ parsed v, r.body ≠ "" → H.jsonParse r.body = some parsed →
      firstTruthyField parsed = some v →
      request H url (some r) = Except.error (toStr H (some v)) := by
    intro parsed v hbody hparse hfirst
    rw [hreq, if_pos hbody, hparse]
    simp [hfirst]
  refine ⟨⟨_, hreq⟩, hchosen, ?_, ?_, ?_, fallbackMessage_ne_empty url r.status,
    firstTruthyField_eq⟩
  · intro parsed s hbody hparse hfirst
    refine ⟨hchosen parsed _ hbody hparse hfirst, ?_⟩
    obtain ⟨key, _, hkey⟩ := List.exists_of_findSome?_eq_some hfirst
    split_ifs at hkey with ht
    rw [hkey] at ht
    simpa [truthy] using ht
  · intro h
    rw [hreq]
    by_cases hbody : r.body = ""
    · simp [hbody]
    · rcases h with h | h | ⟨parsed, hparse, hfirst⟩
      · exact absurd h hbody
      · simp [hbody, h]
      · simp [hbody, hparse, hfirst]
  · simp [fallbackMessage, includes]

/-- C16 (amended) at the answer `500` with body `{"message":"db down"}`. -/
theorem C16_witness :
    ¬ (200 ≤ demoFailResponse.status ∧ demoFailResponse.status ≤ 299) ∧
    ∃ m, request demoHost (CARS_URL demoHost) (some demoFailResponse) = Except.error m :=
  ⟨by decide,
   (C16_request_error_is_first_truthy_field demoHost (CARS_URL demoHost) demoFailResponse
     (by decide)).1⟩

/-- A refresh puts exactly one entry in front of the activity log. -/
theorem syncAll_activity (H : Host) (reason : String) (env : SyncEnv) (st : State) :
    ∃ m, (m = reason ++ " completed" ∨ m = "Data synchronization failed") ∧
      (syncAll H reason env st).state.activity =
        (activityEntry H (env.tick, m) :: st.activity).take 12 := by
  cases hfetch : fetchCars H env.response with
  | error message =>
    exact ⟨_, Or.inr rfl, by simp [syncAll, hfetch, addActivity, activityEntry]⟩
  | ok carData =>
    exact ⟨_, Or.inl rfl, by simp [syncAll, hfetch, addActivity, activityEntry]⟩

/-- `createBooking` either throws and leaves the state as it was, or succeeds and puts
exactly one entry in front of the activity log. It never sends anything. -/
theorem createBooking_cases (H : Host) (env : BookingEnv) (st : State) :
    ((createBooking H env st).error ≠ none ∧ (createBooking H env st).state = st) ∨
    ((createBooking H env st).error = none ∧
      ∃ m, (createBooking H env st).state.activity =
        (activityEntry H (env.tick, m) :: st.activity).take 12) := by
  by_cases hname : H.trim st.bookingForm.customerName = ""
  · exact Or.inl (by simp [createBooking, hname])
  · cases hcar : st.cars.find? (fun item => item.id == st.bookingForm.carId) with
    | none => exact Or.inl (by simp [createBooking, hname, hcar])
    | some c =>
      by_cases hdates : st.bookingForm.startDate = "" ∨ st.bookingForm.endDate = ""
      · exact Or.inl (by simp [createBooking, hname, hcar, hdates])
      · cases hs : bookingDate H st.bookingForm.startDate with
        | none => exact Or.inl (by simp [createBooking, hname, hcar, hdates, hs])
        | some s =>
          cases he : bookingDate H st.bookingForm.endDate with
          | none => exact Or.inl (by simp [createBooking, hname, hcar, hdates, hs, he])
          | some e =>
            by_cases hlt : e < s
            · exact Or.inl (by simp [createBooking, hname, hcar, hdates, hs, he, hlt])
            · refine Or.inr ⟨by simp [createBooking, hname, hcar, hdates, hs, he, hlt],
                "Booking " ++ ("BK-" ++ sliceLast 6 (natToString env.now)) ++
                  " scheduled for " ++ H.trim st.bookingForm.customerName, ?_⟩
              simp [createBooking, hname, hcar, hdates, hs, he, hlt, addActivity,
                activityEntry]

/-- `createCar` either throws and leaves the state as it was, or succeeds and puts exactly
two entries in front of the activity log: its own and the one of the refresh it awaits. -/
theorem createCar_cases (H : Host) (env : CarEnv) (st : State) :
    ((createCar H env st).error ≠ none ∧ (createCar H env st).state = st) ∨
    ((createCar H env st).error = none ∧
      ∃ m1 m2, (createCar H env st).state.activity =
        (activityEntry H (env.sync.tick, m2) :: activityEntry H (env.tick, m1) ::
          st.activity).take 12) := by
  cases hadmin : isAdmin st with
  | false => exact Or.inl (by simp [createCar, hadmin])
  | true =>
    by_cases hnames : H.trim st.carForm.make = "" ∨ H.trim st.carForm.model = ""
    · exact Or.inl (by simp [createCar, hadmin, hnames])
    · cases hp : H.toNumber st.carForm.pricePerDay with
      | none => exact Or.inl (by simp [createCar, hadmin, hnames, hp])
      | some price =>
        by_cases hle : price ≤ 0
        · exact Or.inl (by simp [createCar, hadmin, hnames, hp, hle])
        · cases hreq : request H (CREATE_CAR_URL H) env.response with
          | error message =>
            exact Or.inl (by simp [createCar, hadmin, hnames, hp, hle, hreq])
          | ok created =>
            refine Or.inr ⟨by simp [createCar, hadmin, hnames, hp, hle, hreq], ?_⟩
            obtain ⟨m2, _, hsync⟩ := syncAll_activity H "Car create" env.sync
              (addActivity H env.tick
                ("Car \"" ++ H.trim st.carForm.make ++ " " ++ H.trim st.carForm.model ++
                  "\" added")
                { st with carForm := initialCar,
                          status := { tone := "success", text := "Car created successfully." } })
            refine ⟨"Car \"" ++ H.trim st.carForm.make ++ " " ++ H.trim st.carForm.model ++
              "\" added", m2, ?_⟩
            have hact : (createCar H env st).state.activity =
                (syncAll H "Car create" env.sync
                  (addActivity H env.tick
                    ("Car \"" ++ H.trim st.carForm.make ++ " " ++
                      H.trim st.carForm.model ++ "\" added")
                    { st with carForm := initialCar,
                              status := { tone := "success",
                                          text := "Car created successfully." } })).state.activity := by
              simp only [createCar, hadmin, hnames, hp, hle, hreq]
              simp
              split_ifs <;> rfl
            rw [hact, hsync]
            show (activityEntry H (env.sync.tick, m2) ::
              (activityEntry H (env.tick, _) :: st.activity).take 12).take 12 = _
            exact take_append_take 12 [activityEntry H (env.sync.tick, m2)] _

/-- Whether `createBooking` throws does not depend on the submitting flag. -/
theorem createBooking_error_submitting (H : Host) (env : BookingEnv) (st : State) (b : Bool) :
    (createBooking H env { st with submitting := b }).error =
      (createBooking H env st).error := by
  by_cases hname : H.trim st.bookingForm.customerName = ""
  · simp [createBooking, hname]
  · cases hcar : st.cars.find? (fun item => item.id == st.bookingForm.carId) with
    | none => simp [createBooking, hname, hcar]
    | some c =>
      by_cases hdates : st.bookingForm.startDate = "" ∨ st.bookingForm.endDate = ""
      · simp [createBooking, hname, hcar, hdates]
      · cases hs : bookingDate H st.bookingForm.startDate with
        | none => simp [createBooking, hname, hcar, hdates, hs]
        | some s =>
          cases he : bookingDate H st.bookingForm.endDate with
          | none => simp [createBooking, hname, hcar, hdates, hs, he]
          | some e =>
            by_cases hlt : e < s
            · simp [createBooking, hname, hcar, hdates, hs, he, hlt]
            · simp [createBooking, hname, hcar, hdates, hs, he, hlt]

/-- Whether `createCar` throws does not depend on the submitting flag. -/
theorem createCar_error_submitting (H : Host) (env : CarEnv) (st : State) (b : Bool) :
    (createCar H env { st with submitting := b }).error = (createCar H env st).error := by
  have hsame : isAdmin { st with submitting := b } = isAdmin st := rfl
  cases hadmin : isAdmin st with
  | false => simp [createCar, hsame, hadmin]
  | true =>
    by_cases hnames : H.trim st.carForm.make = "" ∨ H.trim st.carForm.model = ""
    · simp [createCar, hsame, hadmin, hnames]
    · cases hp : H.toNumber st.carForm.pricePerDay with
      | none => simp [createCar, hsame, hadmin, hnames, hp]
      | some price =>
        by_cases hle : price ≤ 0
        · simp [createCar, hsame, hadmin, hnames, hp, hle]
        · cases hreq : request H (CREATE_CAR_URL H) env.response with
          | error message => simp [createCar, hsame, hadmin, hnames, hp, hle, hreq]
          | ok created => simp [createCar, hsame, hadmin, hnames, hp, hle, hreq]

/-- A composer submission whose create routine throws puts exactly one entry,
`Create action failed`, in front of the activity log. -/
theorem handleComposerSubmit_failed_activity (H : Host) (env : ComposerEnv) (st : State)
    (hcar : st.composerType = "car" → (createCar H env.car st).error ≠ none)
    (hbooking : st.composerType ≠ "car" → (createBooking H env.booking st).error ≠ none) :
    (handleComposerSubmit H env st).state.activity =
      (activityEntry H (env.tick, "Create action failed") :: st.activity).take 12 := by
  by_cases hmode : st.composerType = "car"
  · have herr : (createCar H env.car { st with submitting := true }).error ≠ none := by
      rw [createCar_error_submitting]
      exact hcar hmode
    rcases createCar_cases H env.car { st with submitting := true } with ⟨_, hstate⟩ | ⟨hok, _⟩
    · cases hmsg : (createCar H env.car { st with submitting := true }).error with
      | none => exact absurd hmsg herr
      | some message =>
        simp only [handleComposerSubmit]
        rw [if_pos hmode]
        simp only [hmsg, hstate]
        simp [addActivity, activityEntry]
    · exact absurd hok herr
  · have herr : (createBooking H env.booking { st with submitting := true }).error ≠ none := by
      rw [createBooking_error_submitting]
      exact hbooking hmode
    rcases createBooking_cases H env.booking { st with submitting := true } with
      ⟨_, hstate⟩ | ⟨hok, _⟩
    · cases hmsg : (createBooking H env.booking { st with submitting := true }).error with
      | none => exact absurd hmsg herr
      | some message =>
        simp only [handleComposerSubmit]
        rw [if_neg hmode]
        simp only [hmsg, hstate]
        simp [addActivity, activityEntry]
    · exact absurd hok herr

/-- What `handleAuthSubmit` leaves in `authError` and in the activity log, by the answer
of the gateway. -/
theorem handleAuthSubmit_outcome (H : Host) (env : AuthEnv) (st : State) :
    match request H (if st.authMode = "register" then REGISTER_URL H else LOGIN_URL H)
        env.response with
    | Except.error message =>
      (handleAuthSubmit H env st).state.authError =
        (if message ≠ "" then message else "Authentication failed.")
    | Except.ok payload =>
      if (!truthy (some payload) || !truthy (payload.get "email") ||
          !truthy (payload.get "role")) = true then
        (handleAuthSubmit H env st).state.authError = "Unexpected authentication response."
      else
        (handleAuthSubmit H env st).state.activity =
          (activityEntry H (env.tick, "Signed in as " ++ toStr H (payload.get "role")) ::
            st.activity).take 12 ∧
        ∃ user, (handleAuthSubmit H env st).state.sessionUser = some user := by
  by_cases hmode : st.authMode = "register"
  · simp only [handleAuthSubmit, if_pos hmode]
    cases hreq : request H (REGISTER_URL H) env.response with
    | error message => simp
    | ok payload =>
      by_cases hvalid : (!truthy (some payload) || !truthy (payload.get "email") ||
          !truthy (payload.get "role")) = true
      · simp only [hvalid, if_true]
        rfl
      · simp only [hvalid, if_false]
        simp [addActivity, activityEntry]
  · simp only [handleAuthSubmit, if_neg hmode]
    cases hreq : request H (LOGIN_URL H) env.response with
    | error message => simp
    | ok payload =>
      by_cases hvalid : (!truthy (some payload) || !truthy (payload.get "email") ||
          !truthy (payload.get "role")) = true
      · simp only [hvalid, if_true]
        rfl
      · simp only [hvalid, if_false]
        simp [addActivity, activityEntry]

/-- A sign-in that ends without an authentication error puts exactly one entry in front of
the activity log and installs a session. -/
theorem handleAuthSubmit_success_activity (H : Host) (env : AuthEnv) (st : State)
    (hok : (handleAuthSubmit H env st).state.authError = "") :
    ∃ m, (handleAuthSubmit H env st).state.activity =
        (activityEntry H (env.tick, m) :: st.activity).take 12 ∧
      ∃ user, (handleAuthSubmit H env st).state.sessionUser = some user := by
  have hout := handleAuthSubmit_outcome H env st
  cases hreq : request H (if st.authMode = "register" then REGISTER_URL H else LOGIN_URL H)
      env.response with
  | error message =>
    rw [hreq] at hout
    exfalso
    rw [hok] at hout
    by_cases h : message = ""
    · simp [h] at hout
    · simp only [ne_eq, h, not_false_eq_true, if_true] at hout
      exact h hout.symm
  | ok payload =>
    rw [hreq] at hout
    by_cases hvalid : (!truthy (some payload) || !truthy (payload.get "email") ||
        !truthy (payload.get "role")) = true
    · exfalso
      simp only [hvalid, if_true] at hout
      rw [hok] at hout
      exact absurd hout (by decide)
    · simp only [hvalid, if_false] at hout
      exact ⟨_, hout.1, hout.2⟩

/-- The create-car command of `demoAdminState` succeeds and leaves two entries in the
activity log, which was empty. -/
theorem demoCreateCar_run :
    (createCar demoHost demoCarEnv demoAdminState).error = none ∧
    (createCar demoHost demoCarEnv demoAdminState).state.activity =
      [activityEntry demoHost (demoTick, "Car create completed"),
       activityEntry demoHost (demoTick, "Car \"Honda Civic\" added")] := by
  have hadmin : isAdmin demoAdminState = true := rfl
  have hmake : demoHost.trim demoAdminState.carForm.make = "Honda" := by decide
  have hmodel : demoHost.trim demoAdminState.carForm.model = "Civic" := by decide
  have hprice : demoHost.toNumber demoAdminState.carForm.pricePerDay = some 45 := rfl
  have hpost : request demoHost (CREATE_CAR_URL demoHost) demoCarEnv.response =
      Except.ok Json.null := rfl
  have hget : fetchCars demoHost demoCarEnv.sync.response = Except.ok [] := rfl
  have hle : ¬ ((45 : ℚ) ≤ 0) := by norm_num
  constructor
  · simp [createCar, hadmin, hmake, hmodel, hprice, hle, hpost]
  · simp [createCar, hadmin, hmake, hmodel, hprice, hle, hpost, syncAll, hget, truthy,
      addActivity, activityEntry, Json.get]
    exact ⟨⟨rfl, rfl⟩, ⟨rfl, rfl⟩, rfl⟩

/-- C17 (as stated, refuted): the successful create-car command of an admin, started with
an empty activity log, leaves two entries in it (its own and the one of the refresh it
awaits), and a logout leaves the log as it was, without a new entry. -/
theorem C17_counterexample :
    (createCar demoHost demoCarEnv demoAdminState).error = none ∧
    demoAdminState.activity = [] ∧
    ((createCar demoHost demoCarEnv demoAdminState).state.activity).map
      (fun event => event.message) = ["Car create completed", "Car \"Honda Civic\" added"] ∧
    ((createCar demoHost demoCarEnv demoAdminState).state.activity).length = 2 ∧
    (handleLogout demoAdminState).activity = demoAdminState.activity ∧
    ((handleLogout demoAdminState).activity).length = 0 := by
  obtain ⟨hok, hact⟩ := demoCreateCar_run
  refine ⟨hok, rfl, ?_, ?_, rfl, rfl⟩
  · rw [hact]
    rfl
  · rw [hact]
    rfl

/-- A successful sign-in followed by the effect on the new session puts exactly two
entries in front of the activity log: `Signed in as ...` and the one of the refresh
`Initial load`. -/
theorem signIn_then_effect_activity (H : Host) (env : AuthEnv) (sync : SyncEnv) (st : State)
    (hok : (handleAuthSubmit H env st).state.authError = "") :
    ∃ m1 m2, (sessionEffect H sync (handleAuthSubmit H env st).state).state.activity =
      (activityEntry H (sync.tick, m2) :: activityEntry H (env.tick, m1) ::
        st.activity).take 12 := by
  obtain ⟨m1, hact, user, huser⟩ := handleAuthSubmit_success_activity H env st hok
  obtain ⟨m2, _, hsync⟩ := syncAll_activity H "Initial load" sync
    (handleAuthSubmit H env st).state
  refine ⟨m1, m2, ?_⟩
  have heffect : sessionEffect H sync (handleAuthSubmit H env st).state =
      syncAll H "Initial load" sync (handleAuthSubmit H env st).state := by
    simp only [sessionEffect, huser]
  rw [heffect, hsync, hact]
  exact take_append_take 12 [activityEntry H (sync.tick, m2)] _

/-- C17 (amended): a refresh (successful or failed), a successful create-booking command,
a failed composer submission and a confirmed booking deletion each put exactly one entry
in front of the activity log (one `addActivity` call); a successful create-car command
puts two (its own and the one of the refresh it awaits); a successful sign-in puts two as
well (the one of `handleAuthSubmit` and the one of the refresh `Initial load` that the
effect on the new session runs); a logout puts none, also after that effect has run. The
log is cut to its 12 newest entries after each call. -/
theorem C17_activity_entries_per_operation (H : Host) (st : State) :
    (∀ reason env, ∃ m, (syncAll H reason env st).state.activity =
      (activityEntry H (env.tick, m) :: st.activity).take 12) ∧
    (∀ env : BookingEnv, (createBooking H env st).error = none →
      ∃ m, (createBooking H env st).state.activity =
        (activityEntry H (env.tick, m) :: st.activity).take 12) ∧
    (∀ env : CarEnv, (createCar H env st).error = none →
      ∃ m1 m2, (createCar H env st).state.activity =
        (activityEntry H (env.sync.tick, m2) :: activityEntry H (env.tick, m1) ::
          st.activity).take 12) ∧
    (∀ env : ComposerEnv,
      (st.composerType = "car" → (createCar H env.car st).error ≠ none) →
      (st.composerType ≠ "car" → (createBooking H env.booking st).error ≠ none) →
      (handleComposerSubmit H env st).state.activity =
        (activityEntry H (env.tick, "Create action failed") :: st.activity).take 12) ∧
    (∀ tick id, (handleDeleteBooking H true tick id st).activity =
      (activityEntry H (tick, "Booking " ++ id ++ " removed") :: st.activity).take 12) ∧
    (∀ (env : AuthEnv) (sync : SyncEnv), (handleAuthSubmit H env st).state.authError = "" →
      (∃ m, (handleAuthSubmit H env st).state.activity =
        (activityEntry H (env.tick, m) :: st.activity).take 12) ∧
      (∃ user, (handleAuthSubmit H env st).state.sessionUser = some user) ∧
      ∃ m1 m2, (sessionEffect H sync (handleAuthSubmit H env st).state).state.activity =
        (activityEntry H (sync.tick, m2) :: activityEntry H (env.tick, m1) ::
          st.activity).take 12) ∧
    (handleLogout st).activity = st.activity ∧
    (∀ sync : SyncEnv, (sessionEffect H sync (handleLogout st)).state.activity =
      st.activity) := by
  refine ⟨?_, ?_, ?_, ?_, ?_, ?_, rfl, ?_⟩
  · intro reason env
    obtain ⟨m, _, h⟩ := syncAll_activity H reason env st
    exact ⟨m, h⟩
  · intro env hok
    rcases createBooking_cases H env st with ⟨herr, _⟩ | ⟨_, h⟩
    · exact absurd hok herr
    · exact h
  · intro env hok
    rcases createCar_cases H env st with ⟨herr, _⟩ | ⟨_, h⟩
    · exact absurd hok herr
    · exact h
  · intro env hcar hbooking
    exact handleComposerSubmit_failed_activity H env st hcar hbooking
  · intro tick id
    rfl
  · intro env sync hok
    obtain ⟨m, hact, huser⟩ := handleAuthSubmit_success_activity H env st hok
    exact ⟨⟨m, hact⟩, huser, signIn_then_effect_activity H env sync st hok⟩
  · intro sync
    rfl

/-- C17 (amended) at the create-car command of `demoAdminState` and at the sign-in of
`demoAuthEnv`, followed by the refresh of `demoRefreshEnv`. -/
theorem C17_witness :
    ((createCar demoHost demoCarEnv demoAdminState).error = none ∧
     (handleAuthSubmit demoHost demoAuthEnv initialState).state.authError = "") ∧
    (∃ m1 m2, (createCar demoHost demoCarEnv demoAdminState).state.activity =
      (activityEntry demoHost (demoCarEnv.sync.tick, m2) ::
        activityEntry demoHost (demoCarEnv.tick, m1) :: demoAdminState.activity).take 12) ∧
    ∃ m1 m2, (sessionEffect demoHost demoRefreshEnv
        (handleAuthSubmit demoHost demoAuthEnv initialState).state).state.activity =
      (activityEntry demoHost (demoRefreshEnv.tick, m2) ::
        activityEntry demoHost (demoAuthEnv.tick, m1) :: initialState.activity).take 12 :=
  ⟨⟨demoCreateCar_run.1, by decide⟩,
   (C17_activity_entries_per_operation demoHost demoAdminState).2.2.1 demoCarEnv
     demoCreateCar_run.1,
   ((C17_activity_entries_per_operation demoHost initialState).2.2.2.2.2.1 demoAuthEnv
     demoRefreshEnv (by decide)).2.2⟩

theorem bookingsNext24h_perm (H : Host) (now : ℤ) (l₁ l₂ : List Booking) (h : l₁.Perm l₂) :
    bookingsNext24h H l₁ now = bookingsNext24h H l₂ now := by
  unfold bookingsNext24h
  exact (h.filter _).length_eq

/-- C18 (as stated, refuted): the ledger holds one booking, starting 1 March 2024, one hour
after `now`; with the empty query `bookingsNext24h` is 1, with the query `zzz`, which the
booking does not match, it is 0. -/
theorem C18_counterexample :
    bookingDate demoHost demoBooking.startDate = some 1709251200000 ∧
    (1709247600000 : ℤ) ≤ 1709251200000 ∧ (1709251200000 : ℤ) ≤ 1709247600000 + 86400000 ∧
    bookingsNext24h demoHost
      (filteredBookings demoHost (enrichedBookings [demoBooking] [demoCar]) "")
      1709247600000 = 1 ∧
    bookingsNext24h demoHost
      (filteredBookings demoHost (enrichedBookings [demoBooking] [demoCar]) "zzz")
      1709247600000 = 0 := by
  refine ⟨by decide, by decide, by decide, by decide, by decide⟩

/-- C18 (amended): `bookingsNext24h` is the number of bookings of the ledger that pass the
filter of the bookings search (with their enriched label) and whose parsed start date lies
in `[now, now + 24h]`; when the query is empty after normalization it is the number of all
bookings of the ledger with a start date in that window. -/
theorem C18_bookingsNext24h_counts_filtered_ledger
    (H : Host) (bookings : List Booking) (cars : List Car) (queryBookings : String)
    (now : ℤ) :
    bookingsNext24h H (filteredBookings H (enrichedBookings bookings cars) queryBookings) now =
      ((enrichedBookings bookings cars).filter (fun item =>
        (match bookingDate H item.startDate with
          | some s => decide (now ≤ s ∧ s ≤ now + 86400000)
          | none => false) &&
        bookingMatches H (normalize H queryBookings) item)).length ∧
    (normalize H queryBookings = "" →
      bookingsNext24h H (filteredBookings H (enrichedBookings bookings cars) queryBookings)
          now =
        (bookings.filter (fun item =>
          match bookingDate H item.startDate with
          | some s => decide (now ≤ s ∧ s ≤ now + 86400000)
          | none => false)).length) := by
  have htest : (fun item : Booking =>
      match bookingDate H item.startDate with
      | some start => decide (start ≥ now) && decide (start ≤ now + 24 * 60 * 60 * 1000)
      | none => false) =
      (fun item : Booking =>
        match bookingDate H item.startDate with
        | some s => decide (now ≤ s ∧ s ≤ now + 86400000)
        | none => false) := by
    funext item
    cases bookingDate H item.startDate <;> simp
  have hfirst : bookingsNext24h H
      (filteredBookings H (enrichedBookings bookings cars) queryBookings) now =
      ((enrichedBookings bookings cars).filter (fun item =>
        (match bookingDate H item.startDate with
          | some s => decide (now ≤ s ∧ s ≤ now + 86400000)
          | none => false) &&
        bookingMatches H (normalize H queryBookings) item)).length := by
    have hperm : (filteredBookings H (enrichedBookings bookings cars) queryBookings).Perm
        ((enrichedBookings bookings cars).filter
          (bookingMatches H (normalize H queryBookings))) :=
      arraySort_perm (bookingCompare H) _
    rw [bookingsNext24h_perm H now _ _ hperm]
    unfold bookingsNext24h
    dsimp only
    rw [htest, List.filter_filter]
  refine ⟨hfirst, ?_⟩
  intro hq
  rw [hfirst, hq]
  have hall : ∀ item, bookingMatches H "" item = true := by
    intro item
    simp [bookingMatches]
  simp only [hall, Bool.and_true]
  unfold enrichedBookings
  rw [List.filter_map, List.length_map]
  rfl

/-- A positive `bookingsNext24h` exhibits a listed booking that starts inside the window. -/
theorem exists_of_bookingsNext24h_pos (H : Host) (now : ℤ) (l : List Booking)
    (hpos : 0 < bookingsNext24h H l now) :
    ∃ item ∈ l, ∃ t, bookingDate H item.startDate = some t ∧ now ≤ t ∧
      t ≤ now + 86400000 := by
  unfold bookingsNext24h at hpos
  obtain ⟨item, hitem⟩ := List.exists_mem_of_length_pos hpos
  rw [List.mem_filter] at hitem
  exact ⟨item, hitem.1, (startsWithinDay_iff H now item).mp hitem.2⟩

/-- C19: over the list returned by `filteredBookings` and for one instant `now`, a positive
`bookingsNext24h` comes with a `nextPickup` whose start date lies in `[now, now + 24h]`;
so when `nextPickup` is absent the count is 0. -/
theorem C19_next24h_count_agrees_with_nextPickup
    (H : Host) (enriched : List Booking) (queryBookings : String) (now : ℤ) :
    (0 < bookingsNext24h H (filteredBookings H enriched queryBookings) now →
      ∃ b s, nextPickup H (filteredBookings H enriched queryBookings) now = some b ∧
        bookingDate H b.startDate = some s ∧ now ≤ s ∧ s ≤ now + 86400000) ∧
    (nextPickup H (filteredBookings H enriched queryBookings) now = none →
      bookingsNext24h H (filteredBookings H enriched queryBookings) now = 0) := by
  have hmain : 0 < bookingsNext24h H (filteredBookings H enriched queryBookings) now →
      ∃ b s, nextPickup H (filteredBookings H enriched queryBookings) now = some b ∧
        bookingDate H b.startDate = some s ∧ now ≤ s ∧ s ≤ now + 86400000 := by
    intro hpos
    obtain ⟨item, hitem, t, ht, hnow, hcut⟩ := exists_of_bookingsNext24h_pos H now _ hpos
    cases hnext : nextPickup H (filteredBookings H enriched queryBookings) now with
    | none =>
      have hlt := (nextPickup_eq_none_iff H now _).mp hnext item hitem t ht
      exact absurd hnow (not_le.mpr hlt)
    | some b =>
      obtain ⟨_, s, hs, hle, hmin⟩ :=
        nextPickup_earliest H now _ (filteredBookings_sorted H enriched queryBookings) b hnext
      exact ⟨b, s, rfl, hs, hle, le_trans (hmin item hitem t ht hnow) hcut⟩
  refine ⟨hmain, ?_⟩
  intro hnone
  by_contra hne
  obtain ⟨b, _, hsome, _⟩ := hmain (Nat.pos_of_ne_zero hne)
  rw [hnone] at hsome
  exact Option.noConfusion hsome

theorem foldl_add_eq_sum (l : List ℚ) (a : ℚ) :
    l.foldl (fun sum value => sum + value) a = a + l.sum := by
  induction l generalizing a with
  | nil => simp
  | cons x xs ih => rw [List.foldl_cons, ih, List.sum_cons, add_assoc]

theorem le_foldl_max (l : List ℚ) (a : ℚ) :
    a ≤ l.foldl max a ∧ ∀ x ∈ l, x ≤ l.foldl max a := by
  induction l generalizing a with
  | nil => exact ⟨le_refl _, fun x hx => absurd hx (List.not_mem_nil x)⟩
  | cons y ys ih =>
    rw [List.foldl_cons]
    obtain ⟨h1, h2⟩ := ih (max a y)
    refine ⟨le_trans (le_max_left a y) h1, ?_⟩
    intro x hx
    rcases List.mem_cons.mp hx with heq | hmem
    · rw [heq]
      exact le_trans (le_max_right a y) h1
    · exact h2 x hmem

/-- The mean of a non-empty list of rates is at most its maximum. -/
theorem mean_le_max (r : ℚ) (rs : List ℚ) :
    (r :: rs).foldl (fun sum value => sum + value) 0 / ((r :: rs).length : ℚ) ≤
      rs.foldl max r := by
  obtain ⟨h1, h2⟩ := le_foldl_max rs r
  have hall : ∀ x ∈ r :: rs, x ≤ rs.foldl max r := by
    intro x hx
    rcases List.mem_cons.mp hx with heq | hmem
    · rw [heq]
      exact h1
    · exact h2 x hmem
  have hsum := List.sum_le_card_nsmul (r :: rs) (rs.foldl max r) hall
  have hpos : (0 : ℚ) < ((r :: rs).length : ℚ) := by
    rw [List.length_cons]
    exact_mod_cast Nat.succ_pos _
  rw [foldl_add_eq_sum, zero_add, div_le_iff₀ hpos, mul_comm]
  simpa [nsmul_eq_mul] using hsum

/-- A running sum whose every step is exact in double arithmetic is the exact sum. -/
theorem foldl_round_eq_sum (fl : ℚ → ℚ) (l front : List ℚ)
    (hexact : ∀ k, k < l.length →
      fl ((front ++ l.take (k + 1)).sum) = (front ++ l.take (k + 1)).sum) :
    l.foldl (fun sum value => fl (sum + value)) front.sum = (front ++ l).sum := by
  induction l generalizing front with
  | nil => simp
  | cons x xs ih =>
    have h0 := hexact 0 (by simp)
    have hstep : fl (front.sum + x) = (front ++ [x]).sum := by
      simpa using h0
    rw [List.foldl_cons, hstep, ih (front ++ [x])]
    · simp
    · intro k hk
      have h := hexact (k + 1) (by simpa using hk)
      simpa using h

theorem rates_eq_prices (cars : List Car) :
    (cars.map fun item => if item.pricePerDay ≠ 0 then item.pricePerDay else 0) =
      cars.map (fun item => item.pricePerDay) := by
  apply List.map_congr_left
  intro c _
  by_cases h : c.pricePerDay = 0
  · simp [h]
  · simp [h]

theorem topRate_cons (pickupsNext24h : ℕ) (bookings : List Booking) (d : Car)
    (ds : List Car) :
    (insightsRows pickupsNext24h bookings (d :: ds)).topRate =
      (ds.map (fun item => item.pricePerDay)).foldl max d.pricePerDay := by
  have h := rates_eq_prices (d :: ds)
  simp only [List.map_cons] at h
  obtain ⟨h1, h2⟩ := List.cons.inj h
  simp only [insightsRows, List.map_cons]
  rw [h1, h2]

theorem available_add_unavailable (cars : List Car) :
    (cars.filter fun item => item.available).length +
      (cars.filter fun item => !item.available).length = cars.length := by
  induction cars with
  | nil => rfl
  | cons c cs ih =>
    cases hc : c.available <;> simp [List.filter_cons, hc] <;> omega

/-- The highest rate of `insightsRows` is at least every rate of the fleet. -/
theorem rate_le_topRate (pickupsNext24h : ℕ) (bookings : List Booking) (cars : List Car)
    (c : Car) (hc : c ∈ cars) :
    c.pricePerDay ≤ (insightsRows pickupsNext24h bookings cars).topRate := by
  cases cars with
  | nil => exact absurd hc (List.not_mem_nil c)
  | cons d ds =>
    have hmax := le_foldl_max (ds.map (fun item => item.pricePerDay)) d.pricePerDay
    rw [topRate_cons]
    rcases List.mem_cons.mp hc with heq | hmem
    · rw [heq]
      exact hmax.1
    · exact hmax.2 _ (List.mem_map_of_mem _ hmem)

/-- The average of `metrics` and the highest rate of `insightsRows` for the three cars at
`0.1` a day. -/
theorem demoDecimalFleet_rates :
    (metrics demoHost [] demoDecimalFleet).avgDailyRate =
      7205759403792795 / 72057594037927936 ∧
    (insightsRows 0 [] demoDecimalFleet).topRate = 3602879701896397 / 36028797018963968 := by
  constructor
  · simp only [metrics, demoDecimalFleet, demoDecimalCar, demoTenth, demoHost, List.map,
      List.foldl, List.length]
    norm_num
  · simp only [insightsRows, demoDecimalFleet, demoDecimalCar, demoTenth, List.map,
      List.foldl]
    norm_num

/-- C20 (as stated, refuted): for three cars at `0.1` a day the running double sum is the
double that prints as `0.30000000000000004`, so the average of `metrics` is the double
that prints as `0.10000000000000002`, above the highest rate `0.1` of `insightsRows`. -/
theorem C20_counterexample :
    (metrics demoHost [] demoDecimalFleet).avgDailyRate =
      7205759403792795 / 72057594037927936 ∧
    (insightsRows 0 [] demoDecimalFleet).topRate = 3602879701896397 / 36028797018963968 ∧
    (insightsRows 0 [] demoDecimalFleet).topRate <
      (metrics demoHost [] demoDecimalFleet).avgDailyRate := by
  obtain ⟨havg, htop⟩ := demoDecimalFleet_rates
  refine ⟨havg, htop, ?_⟩
  rw [havg, htop]
  norm_num

/-- C20 (amended): for every fleet the available count of `metrics` plus the unavailable
count of `insightsRows` is the fleet size, both rates are 0 for the empty fleet, and the
highest daily rate is at least every rate of the fleet; the average daily rate is the
double quotient of the running double sum of the rates by the fleet size, and it is at
most the highest daily rate whenever those additions and that division are exact (the
running sums and the quotient are doubles). -/
theorem C20_average_rate_le_highest_rate
    (H : Host) (pickupsNext24h : ℕ) (bookings : List Booking) (cars : List Car) :
    ((∀ k, k < cars.length →
        H.roundNumber (((cars.map fun item => item.pricePerDay).take (k + 1)).sum) =
          ((cars.map fun item => item.pricePerDay).take (k + 1)).sum) →
      H.roundNumber ((cars.map fun item => item.pricePerDay).sum / cars.length) =
        (cars.map fun item => item.pricePerDay).sum / cars.length →
      (metrics H bookings cars).avgDailyRate ≤
        (insightsRows pickupsNext24h bookings cars).topRate) ∧
    (cars ≠ [] → (metrics H bookings cars).avgDailyRate =
      H.roundNumber
        ((cars.map fun item => item.pricePerDay).foldl
          (fun sum value => H.roundNumber (sum + value)) 0 / cars.length)) ∧
    (∀ c ∈ cars, c.pricePerDay ≤ (insightsRows pickupsNext24h bookings cars).topRate) ∧
    (metrics H bookings []).avgDailyRate = 0 ∧
    (insightsRows pickupsNext24h bookings []).topRate = 0 ∧
    (metrics H bookings cars).availableNow +
      (insightsRows pickupsNext24h bookings cars).busy = cars.length ∧
    (metrics H bookings cars).fleetCars = cars.length := by
  have havg : cars ≠ [] → (metrics H bookings cars).avgDailyRate =
      H.roundNumber
        ((cars.map fun item => item.pricePerDay).foldl
          (fun sum value => H.roundNumber (sum + value)) 0 / cars.length) := by
    intro hne
    have hlen : cars.length ≠ 0 := fun h => hne (List.length_eq_zero.mp h)
    simp only [metrics, rates_eq_prices, List.length_map]
    rw [if_pos hlen]
  refine ⟨?_, havg, rate_le_topRate pickupsNext24h bookings cars, by simp [metrics], rfl,
    ?_, rfl⟩
  · intro hsum hquot
    cases cars with
    | nil => simp [metrics, insightsRows]
    | cons c cs =>
      have hfold := foldl_round_eq_sum H.roundNumber
        ((c :: cs).map fun item => item.pricePerDay) [] (by
          intro k hk
          simpa using hsum k (by simpa using hk))
      rw [havg (List.cons_ne_nil c cs)]
      have hzero : ([] : List ℚ).sum = 0 := rfl
      rw [hzero] at hfold
      rw [hfold, List.nil_append, hquot]
      have hmean := mean_le_max c.pricePerDay (cs.map fun item => item.pricePerDay)
      rw [foldl_add_eq_sum, zero_add] at hmean
      rw [topRate_cons]
      simpa using hmean
  · exact available_add_unavailable cars

/-- C20 (amended) at the fleet priced 45, 50 and 70 a day: the running sums 45, 95, 165
and the average 55 are doubles. -/
theorem C20_witness :
    ((∀ k, k < demoFleet.length →
        demoHost.roundNumber (((demoFleet.map fun item => item.pricePerDay).take
          (k + 1)).sum) =
          ((demoFleet.map fun item => item.pricePerDay).take (k + 1)).sum) ∧
      demoHost.roundNumber ((demoFleet.map fun item => item.pricePerDay).sum /
          demoFleet.length) =
        (demoFleet.map fun item => item.pricePerDay).sum / demoFleet.length) ∧
    (metrics demoHost [] demoFleet).avgDailyRate ≤ (insightsRows 0 [] demoFleet).topRate :=
  have hsum : ∀ k, k < demoFleet.length →
      demoHost.roundNumber (((demoFleet.map fun item => item.pricePerDay).take
        (k + 1)).sum) =
        ((demoFleet.map fun item => item.pricePerDay).take (k + 1)).sum := by
    intro k hk
    have hk3 : k < 3 := hk
    interval_cases k <;>
      simp only [demoFleet, demoCar, demoHost, List.map, List.take, List.sum_cons,
        List.sum_nil] <;> norm_num
  have hquot : demoHost.roundNumber ((demoFleet.map fun item => item.pricePerDay).sum /
        demoFleet.length) =
      (demoFleet.map fun item => item.pricePerDay).sum / demoFleet.length := by
    simp only [demoFleet, demoCar, demoHost, List.map, List.length, List.sum_cons,
      List.sum_nil]
    norm_num
  ⟨⟨hsum, hquot⟩, (C20_average_rate_le_highest_rate demoHost 0 [] demoFleet).1 hsum hquot⟩

end CarRentals
